import Mathlib

/-!
Verification of the CivicMindAI query-routing core against its design
specification.  The Python sources are shallowly embedded: queries and
document texts are lists of characters, the regular-expression subset used
by the router is given a small executable matcher, and every module-level
operation (router scoring and selection, cache lookup, document chunking,
graph construction, conversational classification, controller dispatch)
is translated function by function.
-/

namespace CivicMind

/-! ## Character classes and basic string utilities

`isWordChar` models the ASCII fragment of the Python regex class `\w`
(letters, digits, underscore); `isSpaceChar` models `\s`
(space, tab, newline, carriage return, vertical tab, form feed).
All queries and documents in this system are ASCII text. -/

def isWordChar (c : Char) : Bool :=
  c.isAlphanum || c = '_'

def isSpaceChar (c : Char) : Bool :=
  c = ' ' || c = '\t' || c = '\n' || c = '\r' || c = '\x0b' || c = '\x0c'

/-- Characterwise lower-casing, the embedding of the Python `str.lower()`
call applied to ASCII query text. -/
def lowerL (s : List Char) : List Char :=
  s.map Char.toLower

/-- Does `s` start with `p`?  (Embeds Python prefix comparison used to
define substring containment.) -/
def startsWith : List Char → List Char → Bool
  | _, [] => true
  | [], _ :: _ => false
  | c :: s, d :: p => c = d && startsWith s p

/-- Does `needle` occur as a contiguous substring of `hay`?  This embeds
the Python expression `needle in hay` on strings. -/
def hasSub : List Char → List Char → Bool
  | hay, needle =>
    startsWith hay needle ||
      match hay with
      | [] => false
      | _ :: t => hasSub t needle

/-- Abbreviation turning a string literal into the character-list
representation used throughout the embedding. -/
def cl (s : String) : List Char := s.toList

/-- Python `str.strip()`: remove whitespace from both ends (right end
first; the order is immaterial). -/
def pyStrip (s : List Char) : List Char :=
  (((s.reverse.dropWhile isSpaceChar).reverse).dropWhile isSpaceChar)

/-- Python `str.title()` on ASCII text: the first letter of every
alphabetic run is upper-cased, the rest lower-cased. -/
def pyTitleAux : Bool → List Char → List Char
  | _, [] => []
  | prevAlpha, c :: rest =>
    (if c.isAlpha then (if prevAlpha then c.toLower else c.toUpper) else c)
      :: pyTitleAux c.isAlpha rest

def pyTitle (s : List Char) : List Char := pyTitleAux false s

/-! ## A matcher for the regular-expression subset used by the router

The router (source `agent_controller.py`) uses patterns built only from
literal characters, alternation, the classes `\s` and `.`, the star on
those classes, and the zero-width word-boundary assertion `\b`.  `Re`
is that subset; `runRe` is a backtracking matcher over positions.  A
position is the pair of the previous character (needed by `\b`) and the
remaining input.  The fuel argument bounds star unrolling; since every
star body in the pattern set consumes at least one character and no star
is nested inside another, fuel `length + 1` is sufficient for
completeness, and the explicit progress guard keeps the matcher sound. -/

inductive Re where
  | eps : Re
  | ch : Char → Re
  | anyc : Re
  | ws : Re
  | wb : Re
  | alt : Re → Re → Re
  | seq : Re → Re → Re
  | star : Re → Re
deriving Repr, DecidableEq

/-- Word-boundary test at a position: exactly one side is a word
character (Python `\b` semantics; outside the string counts as
non-word). -/
def wbOk (prev : Option Char) (rest : List Char) : Bool :=
  let l := match prev with | some c => isWordChar c | none => false
  let r := match rest with | c :: _ => isWordChar c | [] => false
  l != r

/-- Kleene-star unrolling for a given body matcher: at each step either
stop here or run the body once and continue on what remains, provided
the body consumed at least one character.  The fuel starts at one more
than the length of the remaining input, which bounds the possible
number of consuming iterations, so the unrolling is exhaustive. -/
def starRun (body : Option Char → List Char → List (Option Char × List Char)) :
    Nat → Option Char → List Char → List (Option Char × List Char)
  | 0, p, s => [(p, s)]
  | fuel + 1, p, s =>
    (p, s) :: (body p s).flatMap fun pr =>
      if pr.2.length < s.length then starRun body fuel pr.1 pr.2 else []

def runRe : Re → Option Char → List Char → List (Option Char × List Char)
  | .eps, prev, s => [(prev, s)]
  | .ch _, _, [] => []
  | .ch c, _, x :: rest => if x = c then [(some x, rest)] else []
  | .anyc, _, [] => []
  | .anyc, _, x :: rest => if x = '\n' then [] else [(some x, rest)]
  | .ws, _, [] => []
  | .ws, _, x :: rest => if isSpaceChar x then [(some x, rest)] else []
  | .wb, prev, s => if wbOk prev s then [(prev, s)] else []
  | .alt a b, prev, s => runRe a prev s ++ runRe b prev s
  | .seq a b, prev, s =>
    (runRe a prev s).flatMap fun pr => runRe b pr.1 pr.2
  | .star a, prev, s => starRun (runRe a) (s.length + 1) prev s

/-- Does the pattern match starting exactly at the given position? -/
def matchHere (re : Re) (prev : Option Char) (s : List Char) : Bool :=
  !(runRe re prev s).isEmpty

/-- Scan of all start positions, threading the previous character. -/
def searchAux (re : Re) (prev : Option Char) : List Char → Bool
  | [] => matchHere re prev []
  | c :: rest => matchHere re prev (c :: rest) || searchAux re (some c) rest

/-- The embedding of `re.search(pattern, text)` viewed as a Boolean:
does the pattern match anywhere in the text? -/
def reSearch (re : Re) (s : List Char) : Bool :=
  searchAux re none s

/-! Pattern building blocks. -/

def lit (s : String) : Re :=
  s.toList.foldr (fun c acc => Re.seq (Re.ch c) acc) Re.eps

def altL : List Re → Re
  | [] => Re.eps
  | [r] => r
  | r :: rs => Re.alt r (altL rs)

def seqL : List Re → Re
  | [] => Re.eps
  | [r] => r
  | r :: rs => Re.seq r (seqL rs)

/-- `\s+` -/
def wsPlus : Re := Re.seq Re.ws (Re.star Re.ws)

/-- `.*` -/
def dotStar : Re := Re.star Re.anyc

/-- A pattern of the shape `\b(w1|w2|...)\b`. -/
def wordAlt (ws : List String) : Re :=
  seqL [Re.wb, altL (ws.map lit), Re.wb]

/-! ## Router signature tables

Embedding of `AgentController._initialize_routing_patterns` from
`agent_controller.py`: for each of the four modules, the plain keyword
list and the regular-expression pattern list, transcribed in source
order. -/

inductive AIModule where
  | CAG : AIModule
  | RAG : AIModule
  | KAG : AIModule
  | SLM : AIModule
deriving Repr, DecidableEq

structure RoutingConfig where
  keywords : List (List Char)
  patterns : List Re

def cagConfig : RoutingConfig where
  keywords :=
    [cl "helpline", cl "contact", cl "number", cl "phone", cl "emergency",
     cl "fire", cl "police", cl "ambulance", cl "hospital",
     cl "office hours", cl "timing", cl "schedule", cl "website",
     cl "zone contact", cl "collector office", cl "mayor office"]
  patterns :=
    [wordAlt ["helpline", "contact", "number", "phone"],
     wordAlt ["emergency", "fire", "police", "ambulance"],
     wordAlt ["office hours", "timing", "schedule"],
     seqL [Re.wb, altL [lit "zone", lit "area"], wsPlus,
           altL [lit "contact", lit "number"], Re.wb]]

def ragConfig : RoutingConfig where
  keywords :=
    [cl "latest", cl "recent", cl "update", cl "current", cl "new", cl "report",
     cl "schedule", cl "timings", cl "rules", cl "guidelines", cl "notification",
     cl "2025", cl "october", cl "september", cl "today"]
  patterns :=
    [wordAlt ["latest", "recent", "update", "current", "new"],
     seqL [Re.wb, altL [lit "rules", lit "guidelines", lit "notification"],
           wsPlus, altL [lit "2025", lit "2024"], Re.wb],
     seqL [Re.wb, altL [lit "schedule", lit "timing"], wsPlus,
           altL [lit "for", lit "of"], Re.wb],
     seqL [Re.wb, altL [lit "what is", lit "show me"], wsPlus, dotStar,
           altL [lit "schedule", lit "timing", lit "rule"], Re.wb]]

def kagConfig : RoutingConfig where
  keywords :=
    [cl "how to", cl "procedure", cl "steps", cl "process", cl "apply",
     cl "get", cl "obtain", cl "registration", cl "application",
     cl "who handles", cl "responsible", cl "department",
     cl "repair", cl "complaint", cl "issue"]
  patterns :=
    [wordAlt ["how to", "procedure", "steps", "process"],
     seqL [Re.wb, altL [lit "apply", lit "get", lit "obtain"], wsPlus,
           altL [lit "for", lit "a", lit "an"], Re.wb],
     wordAlt ["who handles", "responsible", "department"],
     seqL [Re.wb, altL [lit "repair", lit "complaint", lit "issue"], wsPlus,
           altL [lit "in", lit "at", lit "for"], Re.wb]]

def slmConfig : RoutingConfig where
  keywords :=
    [cl "hello", cl "hi", cl "hey", cl "who are you", cl "what are you",
     cl "thank", cl "thanks", cl "bye", cl "goodbye", cl "help",
     cl "chat", cl "talk", cl "conversation"]
  patterns :=
    [seqL [Re.wb,
           altL [lit "hello", lit "hi", lit "hey",
                 seqL [lit "good", wsPlus,
                       altL [lit "morning", lit "afternoon", lit "evening"]]],
           Re.wb],
     seqL [Re.wb, altL [lit "who", lit "what"], wsPlus, lit "are", wsPlus,
           lit "you", Re.wb],
     wordAlt ["thank", "thanks", "appreciate"],
     seqL [Re.wb,
           altL [lit "bye", lit "goodbye", seqL [lit "see", wsPlus, lit "you"]],
           Re.wb]]

def configOf : AIModule → RoutingConfig
  | .CAG => cagConfig
  | .RAG => ragConfig
  | .KAG => kagConfig
  | .SLM => slmConfig

/-! ## Router scoring and selection

Embedding of `AgentController.analyze_query`: each keyword contained in
the lower-cased query adds 1 to the score of its module, each pattern
found in it adds 2; then the Python call `max(scores, key=scores.get)`
picks, in the dictionary insertion order CAG, RAG, KAG, SLM, the first
module whose score no later module strictly exceeds. -/

/-- Score of one module configuration against a lower-cased query;
the two accumulating loops of `analyze_query` over the keyword list
and the pattern list of the module. -/
def analyzeScore (cfg : RoutingConfig) (ql : List Char) : Nat :=
  let kscore := cfg.keywords.foldl
    (fun acc kw => if hasSub ql kw then acc + 1 else acc) 0
  cfg.patterns.foldl
    (fun acc p => if reSearch p ql then acc + 2 else acc) kscore

/-- The Python builtin `max` over a nonempty sequence with a key
function: keep the current leader unless a later element is strictly
greater, so the first of several maximal elements wins. -/
def pyMaxFold : AIModule × Nat → List (AIModule × Nat) → AIModule × Nat
  | best, [] => best
  | best, x :: xs => pyMaxFold (if x.2 > best.2 then x else best) xs

/-- Lookup in the scores dictionary, `scores[m]`. -/
def scoreDict (sC sR sK sS : Nat) : AIModule → Nat
  | .CAG => sC
  | .RAG => sR
  | .KAG => sK
  | .SLM => sS

structure Analysis where
  selectedModule : AIModule
  scoreCAG : Nat
  scoreRAG : Nat
  scoreKAG : Nat
  scoreSLM : Nat
  confidence : ℚ
deriving Repr, DecidableEq

/-- Embedding of `AgentController.analyze_query` (the matched-pattern
explanation strings, which merely mirror the score computation, are not
modelled).  The confidence is `best_score / max(sum(scores), 1)` as an
exact rational in place of the Python float. -/
def analyzeQuery (q : List Char) : Analysis :=
  let ql := lowerL q
  let sC := analyzeScore cagConfig ql
  let sR := analyzeScore ragConfig ql
  let sK := analyzeScore kagConfig ql
  let sS := analyzeScore slmConfig ql
  let bestModule := (pyMaxFold (AIModule.CAG, sC)
    [(AIModule.RAG, sR), (AIModule.KAG, sK), (AIModule.SLM, sS)]).1
  let bestScore := scoreDict sC sR sK sS bestModule
  { selectedModule := if bestScore = 0 then AIModule.SLM else bestModule
    scoreCAG := sC
    scoreRAG := sR
    scoreKAG := sK
    scoreSLM := sS
    confidence := (bestScore : ℚ) / ((max (sC + sR + sK + sS) 1 : Nat) : ℚ) }

/-! ## Conversational (SLM) module

Embedding of `slm_module.py` in its offline configuration: the external
text-completion collaborator (`client_available = True` path) is out of
scope, so `get_response` always takes the deterministic canned-response
path.  Tables and classification rules are transcribed in source
order. -/

def anyHasSub (ql : List Char) (kws : List (List Char)) : Bool :=
  kws.any fun kw => hasSub ql kw

/-- `SLMModule._initialize_fallback_responses`. -/
def fallbackResponses : List (String × String) :=
  [("greeting", "Hello! I\x27m CivicMindAI, your Chennai civic assistant. I can help you with civic services, government procedures, emergency contacts, and more. What can I assist you with today?"),
   ("who_are_you", "I\x27m CivicMindAI, an AI-powered civic assistant specifically designed to help Chennai residents with civic issues. I use advanced AI technologies like RAG, KAG, and CAG to provide accurate and up-to-date information about municipal services, government procedures, and civic amenities."),
   ("capabilities", "I can help you with:\n• Emergency contact numbers\n• Civic service procedures (water, tax, certificates)\n• Government office information\n• Municipal service complaints\n• Zone-specific contacts\n• Latest civic updates and guidelines"),
   ("thanks", "You\x27re welcome! I\x27m here to help Chennai residents with civic issues anytime. Feel free to ask if you have more questions about municipal services, government procedures, or civic amenities."),
   ("goodbye", "Goodbye! Thank you for using CivicMindAI. Remember, I\x27m always here to help with your Chennai civic needs. Have a great day!"),
   ("help", "I\x27m your Chennai civic assistant! You can ask me about:\n• Emergency numbers (fire, police, ambulance)\n• Water supply issues and CMWSSB services\n• Property tax payment procedures\n• Garbage collection schedules\n• Birth/death certificate applications\n• Municipal office contacts\n• And much more civic information!"),
   ("how_it_works", "I use four advanced AI technologies:\n🔍 **RAG**: Searches official documents and web sources\n🧠 **KAG**: Uses knowledge graphs for step-by-step procedures\n⚡ **CAG**: Provides instant answers from cached information\n🤖 **SLM**: Handles general conversation (that\x27s me!)\n\nI automatically choose the best method based on your question type."),
   ("about_chennai", "Chennai, the capital of Tamil Nadu, is served by several civic bodies:\n• Greater Chennai Corporation (GCC) - Municipal services\n• CMWSSB - Water supply and sewerage\n• TANGEDCO - Electricity\n• Tamil Nadu Police - Law and order\n\nI can help you interact with all these services efficiently!"),
   ("feedback", "I appreciate your feedback! While I can\x27t store it permanently, your input helps me understand how to better assist Chennai residents. If you have specific suggestions about civic services, I recommend contacting the relevant departments directly using the contact numbers I can provide."),
   ("default", "I understand you\x27re asking about something civic-related, but I need more specific information to help you properly. Could you please ask about:\n• A specific civic service (water, tax, certificates)\n• An emergency contact number\n• A government procedure\n• A municipal office contact\n\nWhat exactly can I help you with today?")]

/-- First-match association lookup with a default, the embedding of the
Python `dict.get(key, default)` call. -/
def lookupD (l : List (String × String)) (k : String) (dflt : String) : String :=
  match l.find? fun kv => kv.1 = k with
  | some kv => kv.2
  | none => dflt

/-- `SLMModule.classify_query_type`: ordered intent rules, first match
wins. -/
def classifyQueryType (q : List Char) : String :=
  let ql := lowerL q
  if anyHasSub ql [cl "hello", cl "hi", cl "hey", cl "good morning",
      cl "good afternoon", cl "good evening"] then "greeting"
  else if anyHasSub ql [cl "who are you", cl "what are you",
      cl "tell me about yourself", cl "introduce yourself"] then "who_are_you"
  else if anyHasSub ql [cl "what can you do", cl "your capabilities",
      cl "what do you help with", cl "services"] then "capabilities"
  else if anyHasSub ql [cl "thank", cl "thanks", cl "appreciate"] then "thanks"
  else if anyHasSub ql [cl "bye", cl "goodbye", cl "see you", cl "exit",
      cl "quit"] then "goodbye"
  else if anyHasSub ql [cl "help", cl "assist", cl "support",
      cl "guide"] then "help"
  else if anyHasSub ql [cl "how do you work", cl "how does this work",
      cl "explain your system"] then "how_it_works"
  else if anyHasSub ql [cl "about chennai", cl "chennai city",
      cl "tell me about chennai"] then "about_chennai"
  else if anyHasSub ql [cl "feedback", cl "suggestion", cl "improve",
      cl "better"] then "feedback"
  else "default"

structure SlmData where
  response : String
  method : String
  queryType : String
deriving Repr, DecidableEq

structure SlmResponse where
  success : Bool
  data : Option SlmData
  source : String
deriving Repr, DecidableEq

/-- `SLMModule.get_response` on the offline path: classify the query and
return the canned response for its type, defaulting to the
`default` entry (the timestamp and log fields are not modelled). -/
def slmGetResponse (q : List Char) : SlmResponse :=
  let qt := classifyQueryType q
  { success := true
    data := some
      { response := lookupD fallbackResponses qt
          (lookupD fallbackResponses "default" "")
        method := "Fallback Response"
        queryType := qt }
    source := "SLM" }

/-- `SLMModule.format_response`.  The generated-method footer carries a
wall-clock time in the source; that branch is unreachable on the offline
path, and its time component is replaced by an empty stub here. -/
def slmFormatResponse (r : SlmResponse) : String :=
  if r.success = false then
    "I apologize, but I\x27m having trouble processing your request right now. Please try asking about specific civic services, and I\x27ll do my best to help!"
  else
    match r.data with
    | none => ""
    | some d =>
      let footer :=
        if d.method = "OpenAI API" then
          "\n\n💬 *Response generated via gpt-3.5-turbo*"
        else
          "\n\n🤖 *Predefined response for " ++ d.queryType ++ " query*"
      d.response ++ footer

/-! ## Agent controller dispatch

Embedding of `AgentController.route_query`.  The three knowledge-backed
modules appear as abstract responders (a success flag plus the formatted
text their `get_response`/`format_response` pair produces); the SLM
responder is the concrete embedding above, since the fallback branch of
`route_query` depends on it. -/

def slmRespond (q : List Char) : Bool × String :=
  let r := slmGetResponse q
  (r.success, slmFormatResponse r)

structure ControllerState where
  ragAvailable : Bool
  kagAvailable : Bool
  cagAvailable : Bool
  slmAvailable : Bool
  cagRespond : List Char → Bool × String
  ragRespond : List Char → Bool × String
  kagRespond : List Char → Bool × String

def moduleName : AIModule → String
  | .CAG => "CAG"
  | .RAG => "RAG"
  | .KAG => "KAG"
  | .SLM => "SLM"

structure ControllerResponse where
  success : Bool
  responseText : String
  selectedModule : String
  analysis : Analysis

/-- Availability flag of the module that the router picked. -/
def availableFor (st : ControllerState) : AIModule → Bool
  | .CAG => st.cagAvailable
  | .RAG => st.ragAvailable
  | .KAG => st.kagAvailable
  | .SLM => st.slmAvailable

/-- `AgentController.route_query`: dispatch to the selected module when
it is available; otherwise fall back to the SLM module when that one is
available, overwriting the selected-module label with `SLM`; otherwise
report failure with an apology text and the original label. -/
def routeQuery (st : ControllerState) (q : List Char) : ControllerResponse :=
  let analysis := analyzeQuery q
  let sel := analysis.selectedModule
  let dispatched : (Bool × String) × String :=
    if sel = AIModule.CAG ∧ st.cagAvailable = true then (st.cagRespond q, "CAG")
    else if sel = AIModule.RAG ∧ st.ragAvailable = true then (st.ragRespond q, "RAG")
    else if sel = AIModule.KAG ∧ st.kagAvailable = true then (st.kagRespond q, "KAG")
    else if sel = AIModule.SLM ∧ st.slmAvailable = true then (slmRespond q, "SLM")
    else if st.slmAvailable = true then (slmRespond q, "SLM")
    else ((false,
      "I apologize, but I\x27m currently unable to process your request. Please try again later."),
      moduleName sel)
  { success := dispatched.1.1
    responseText := dispatched.1.2
    selectedModule := dispatched.2
    analysis := analysis }

/-! ## Cache (CAG) module

Embedding of `cag_module.py`: the five cache partitions, the coarse
category gates of `search_cache`, and the per-category keyword tables,
all in source order. -/

structure CivicCache where
  emergencyContacts : List (String × String)
  governmentContacts : List (String × String)
  civicServicesHelplines : List (String × String)
  zoneContacts : List (String × String)
  quickInfo : List (String × String)

def assocGet (l : List (String × String)) (k : String) : Option String :=
  (l.find? fun kv => kv.1 = k).map fun kv => kv.2

inductive CacheResult where
  | emergencyContact : (service number availability : String) → CacheResult
  | allEmergencyContacts : (contacts : List (String × String)) → CacheResult
  | governmentContact : (office number timing : String) → CacheResult
  | civicService : (service helpline timing : String) → CacheResult
  | zoneContact : (zone contact services : String) → CacheResult
  | quickInfo : (infoType details : String) → CacheResult
  | websites : (sites : List (String × String)) → CacheResult
deriving Repr, DecidableEq

/-- The `type` field of the returned dictionary. -/
def CacheResult.kind : CacheResult → String
  | .emergencyContact _ _ _ => "emergency_contact"
  | .allEmergencyContacts _ => "all_emergency_contacts"
  | .governmentContact _ _ _ => "government_contact"
  | .civicService _ _ _ => "civic_service"
  | .zoneContact _ _ _ => "zone_contact"
  | .quickInfo _ _ => "quick_info"
  | .websites _ => "websites"

/-- Shared shape of the category search loops: return the first table
row whose keyword occurs in the query and whose cache key is present in
the partition, together with the stored value. -/
def firstHit (table : List (List Char × String))
    (data : List (String × String)) (q : List Char) :
    Option (List Char × String × String) :=
  match table with
  | [] => none
  | (kw, key) :: rest =>
    if hasSub q kw then
      match assocGet data key with
      | some v => some (kw, key, v)
      | none => firstHit rest data q
    else firstHit rest data q

def emergencyKeywords : List (List Char × String) :=
  [(cl "fire", "fire"), (cl "police", "police"), (cl "ambulance", "ambulance"),
   (cl "medical", "ambulance"), (cl "hospital", "ambulance"),
   (cl "flood", "flood_helpline"), (cl "water emergency", "cmwssb_complaint"),
   (cl "electricity", "electricity_complaint"), (cl "gas", "gas_leak"),
   (cl "women", "women_helpline"), (cl "child", "child_helpline"),
   (cl "corporation", "chennai_corporation")]

/-- `CAGModule._search_emergency_contacts`. -/
def searchEmergencyContacts (cache : CivicCache) (q : List Char) :
    Option CacheResult :=
  match firstHit emergencyKeywords cache.emergencyContacts q with
  | some (kw, key, v) =>
    some (.emergencyContact (String.mk (pyTitle kw)) v
      (if key = "fire" ∨ key = "police" ∨ key = "ambulance" then "24x7"
       else "Office hours"))
  | none =>
    if hasSub q (cl "emergency") && hasSub q (cl "all") then
      some (.allEmergencyContacts cache.emergencyContacts)
    else none

def govKeywords : List (List Char × String) :=
  [(cl "collector", "collector_office"), (cl "mayor", "mayor_office"),
   (cl "district", "district_collector"), (cl "cm", "cm_cell"),
   (cl "chief minister", "cm_cell"), (cl "police control", "tn_police_control")]

/-- `CAGModule._search_government_contacts`. -/
def searchGovernmentContacts (cache : CivicCache) (q : List Char) :
    Option CacheResult :=
  match firstHit govKeywords cache.governmentContacts q with
  | some (kw, _, v) =>
    some (.governmentContact (String.mk (pyTitle kw)) v
      "Office hours (9:30 AM - 5:30 PM)")
  | none => none

def serviceKeywords : List (List Char × String) :=
  [(cl "property tax", "property_tax"), (cl "water tax", "water_tax"),
   (cl "birth certificate", "birth_certificate"),
   (cl "death certificate", "death_certificate"),
   (cl "trade license", "trade_license"),
   (cl "building permit", "building_permit"),
   (cl "marriage", "marriage_registration")]

/-- `CAGModule._search_civic_services`. -/
def searchCivicServices (cache : CivicCache) (q : List Char) :
    Option CacheResult :=
  match firstHit serviceKeywords cache.civicServicesHelplines q with
  | some (kw, _, v) =>
    some (.civicService (String.mk (pyTitle kw)) v "Office hours")
  | none => none

def zoneKeywords : List (List Char × String) :=
  [(cl "north", "zone_1_north"), (cl "north east", "zone_2_north_east"),
   (cl "central", "zone_3_central"), (cl "south west", "zone_4_south_west"),
   (cl "south", "zone_5_south"), (cl "adyar", "zone_6_adyar"),
   (cl "anna nagar", "zone_7_anna_nagar"), (cl "teynampet", "zone_8_teynampet")]

/-- `CAGModule._search_zone_info`. -/
def searchZoneInfo (cache : CivicCache) (q : List Char) :
    Option CacheResult :=
  match firstHit zoneKeywords cache.zoneContacts q with
  | some (kw, _, v) =>
    some (.zoneContact (String.mk (pyTitle kw)) v
      "Water supply, complaints, maintenance")
  | none => none

inductive QuickTarget where
  | single : String → QuickTarget
  | multi : List String → QuickTarget
deriving Repr, DecidableEq

def infoKeywords : List (List Char × QuickTarget) :=
  [(cl "office hours", .single "corporation_office_hours"),
   (cl "timing", .single "corporation_office_hours"),
   (cl "water supply", .single "water_supply_timings"),
   (cl "garbage", .single "garbage_collection"),
   (cl "tax due", .single "property_tax_due_date"),
   (cl "website", .multi ["corporation_website", "cmwssb_website"])]

/-- Loop body of `CAGModule._search_quick_info`: a list-valued table
entry returns a website collection without a key-presence test; a
single-valued entry returns its stored value only if the key is present,
and otherwise the loop continues. -/
def quickLoop (data : List (String × String)) (q : List Char) :
    List (List Char × QuickTarget) → Option CacheResult
  | [] => none
  | (kw, t) :: rest =>
    if hasSub q kw then
      match t with
      | .multi keys =>
        some (.websites (keys.filterMap fun k =>
          (assocGet data k).map fun v => (k, v)))
      | .single key =>
        match assocGet data key with
        | some v => some (.quickInfo (String.mk (pyTitle kw)) v)
        | none => quickLoop data q rest
    else quickLoop data q rest

def searchQuickInfo (cache : CivicCache) (q : List Char) :
    Option CacheResult :=
  quickLoop cache.quickInfo q infoKeywords

def gateEmergency : List (List Char) :=
  [cl "emergency", cl "helpline", cl "contact", cl "phone", cl "number"]
def gateGovernment : List (List Char) :=
  [cl "office", cl "collector", cl "mayor", cl "government"]
def gateCivic : List (List Char) :=
  [cl "tax", cl "certificate", cl "license", cl "permit"]
def gateZone : List (List Char) :=
  [cl "zone", cl "area", cl "ward", cl "anna nagar", cl "adyar"]
def gateQuick : List (List Char) :=
  [cl "timing", cl "hours", cl "schedule", cl "website"]

/-- `CAGModule.search_cache`: lower-case the query, dispatch on the
first matching coarse category gate, and return that category search
result (even when it is a miss — later gates are not tried). -/
def searchCache (cache : CivicCache) (q : List Char) : Option CacheResult :=
  let ql := lowerL q
  if anyHasSub ql gateEmergency then searchEmergencyContacts cache ql
  else if anyHasSub ql gateGovernment then searchGovernmentContacts cache ql
  else if anyHasSub ql gateCivic then searchCivicServices cache ql
  else if anyHasSub ql gateZone then searchZoneInfo cache ql
  else if anyHasSub ql gateQuick then searchQuickInfo cache ql
  else none

/-- The cache snapshot `data/civic_cache.json` produced by the data
seeding script, loaded by `CAGModule.load_cache`. -/
def civicCache : CivicCache where
  emergencyContacts :=
    [("fire", "101"), ("police", "100"), ("ambulance", "108"),
     ("chennai_corporation", "1913"), ("cmwssb_complaint", "044-45674567"),
     ("electricity_complaint", "044-25675765"), ("gas_leak", "1906"),
     ("women_helpline", "1091"), ("child_helpline", "1098"),
     ("disaster_management", "108"), ("flood_helpline", "1913")]
  governmentContacts :=
    [("collector_office", "044-28520314"), ("mayor_office", "044-25384681"),
     ("district_collector", "044-25620314"), ("cm_cell", "044-25675765"),
     ("tn_police_control", "044-28447095")]
  civicServicesHelplines :=
    [("property_tax", "1913"), ("water_tax", "044-28451300"),
     ("birth_certificate", "044-25384680"), ("death_certificate", "044-25384680"),
     ("trade_license", "044-25384689"), ("building_permit", "044-25384690"),
     ("marriage_registration", "044-25384685")]
  zoneContacts :=
    [("zone_1_north", "044-28451300 Ext.233"),
     ("zone_2_north_east", "044-28451300 Ext.213"),
     ("zone_3_central", "044-28451300 Ext.212"),
     ("zone_4_south_west", "044-28451300 Ext.386"),
     ("zone_5_south", "044-28451300 Ext.211"),
     ("zone_6_adyar", "044-24912345"),
     ("zone_7_anna_nagar", "044-26152345"),
     ("zone_8_teynampet", "044-24332345")]
  quickInfo :=
    [("corporation_office_hours", "9:30 AM to 5:30 PM (Monday to Friday)"),
     ("emergency_services", "24x7 Available"),
     ("water_supply_timings", "6 AM to 8 AM and 6 PM to 8 PM"),
     ("garbage_collection", "Daily 6 AM to 10 AM"),
     ("property_tax_due_date", "31st March every year"),
     ("water_tax_frequency", "Bi-monthly"),
     ("corporation_website", "https://chennaicorporation.gov.in"),
     ("cmwssb_website", "https://cmwssb.tn.gov.in")]

/-! ## Document (RAG) module: chunking and sources

Embedding of `rag_module.py`.  `splitDocument` is
`RAGModule._split_document` (chunk identifiers and timestamps carry no
information about the text and are not modelled); `searchWeb` is the
simulated external-source search; `ragGetResponse` is
`RAGModule.get_response` with the similarity-ranked local document hits
passed in as a parameter, because the embedding-vector index behind
`search_documents` is an external numeric collaborator. -/

def nl2 : List Char := ['\n', '\n']

/-- Python `content.split(sep)` for the two-newline paragraph separator:
greedy left-to-right, keeping empty fragments.  The accumulator holds
the current fragment reversed. -/
def splitNN : List Char → List Char → List (List Char)
  | acc, [] => [acc.reverse]
  | acc, [c] => [(c :: acc).reverse]
  | acc, a :: b :: t =>
    if a = '\n' ∧ b = '\n' then acc.reverse :: splitNN [] t
    else splitNN (a :: acc) (b :: t)

/-- The paragraph accumulation loop of `_split_document`: grow the
running chunk while the next paragraph keeps it under the target size,
otherwise flush it (if its stripped body is nonempty) and restart from
the paragraph; the final partial chunk is flushed the same way. -/
def chunkLoop (chunkSize : Nat) : List (List Char) → List Char → List (List Char)
  | [], current =>
    if pyStrip current = [] then [] else [pyStrip current]
  | p :: ps, current =>
    if current.length + p.length < chunkSize then
      chunkLoop chunkSize ps (current ++ p ++ nl2)
    else
      (if pyStrip current = [] then [] else [pyStrip current])
        ++ chunkLoop chunkSize ps (p ++ nl2)

/-- `RAGModule._split_document` restricted to the chunk bodies, with the
source default target size 500 passed at the call sites. -/
def splitDocument (chunkSize : Nat) (content : List Char) : List (List Char) :=
  chunkLoop chunkSize (splitNN [] content) []

/-- Removal of every paragraph separator, greedy left to right: the
complement of `splitNN`, used to state the chunking losslessness
property (concatenating the fragments of the split gives exactly
this). -/
def rmNN : List Char → List Char
  | [] => []
  | [c] => [c]
  | a :: b :: t => if a = '\n' ∧ b = '\n' then rmNN t else a :: rmNN (b :: t)

/-- No two adjacent newline characters: separator-free text. -/
def NoNN (s : List Char) : Prop :=
  List.Chain' (fun a b => ¬(a = '\n' ∧ b = '\n')) s

/-- Fragments joined by single separators: the stripped body of a chunk
holding those paragraphs. -/
def joinNN : List (List Char) → List Char
  | [] => []
  | [q] => q
  | q :: q2 :: qs => q ++ nl2 ++ joinNN (q2 :: qs)

/-- The running chunk built from the accumulated paragraphs, each
followed by the reinserted separator. -/
def flushNN (qs : List (List Char)) : List Char :=
  (qs.map fun q => q ++ nl2).flatten

/-- The length of the longest paragraph of a document. -/
def maxParaLen (content : List Char) : Nat :=
  ((splitNN [] content).map List.length).foldr max 0

/-- A paragraph that the chunking loop reassembles losslessly: nonempty,
invariant under stripping, and containing no separator (the last
property holds for every fragment `splitNN` produces). -/
def goodPara (p : List Char) : Prop :=
  p ≠ [] ∧ pyStrip p = p ∧ NoNN p

structure WebItem where
  title : String
  url : String
  content : String
  source : String
  date : String
deriving Repr, DecidableEq

/-- The fixed three-element simulated result list of
`RAGModule.search_web`. -/
def mockResults (q : String) : List WebItem :=
  [{ title := "Chennai Corporation Latest Updates - October 2025"
     url := "https://chennaicorporation.gov.in/latest-updates"
     content := "Recent updates on " ++ q ++ " in Chennai. New initiatives launched for better civic services."
     source := "Chennai Corporation Official"
     date := "2025-10-04" },
   { title := "CMWSSB News: " ++ q ++ " Services Enhanced"
     url := "https://cmwssb.tn.gov.in/news"
     content := "Chennai Metro Water board announces improvements in " ++ q ++ " related services across the city."
     source := "CMWSSB Official"
     date := "2025-10-03" },
   { title := "Tamil Nadu Government Portal - " ++ q
     url := "https://tn.gov.in/citizen-services"
     content := "Official government guidelines and procedures for " ++ q ++ " in Tamil Nadu."
     source := "TN Government"
     date := "2025-10-02" }]

/-- `RAGModule.search_web`: truncate the mock list and attach the fixed
relevance score 0.85 to every kept item. -/
def searchWeb (q : String) (numResults : Nat) : List (WebItem × ℚ) :=
  ((mockResults q).take numResults).map fun r => (r, (85 : ℚ) / 100)

structure RagData where
  documents : List String
  webSources : List (WebItem × ℚ)
  totalSources : Nat
deriving Repr, DecidableEq

structure RagResponse where
  success : Bool
  data : Option RagData
  message : String
deriving Repr, DecidableEq

/-- `RAGModule.get_response`: combine the local document hits with two
simulated web results; the failure branch fires only when both lists are
empty. -/
def ragGetResponse (docResults : List String) (q : String) : RagResponse :=
  let webResults := searchWeb q 2
  let total := docResults.length + webResults.length
  if docResults.length ≠ 0 ∨ webResults.length ≠ 0 then
    { success := true
      data := some { documents := docResults, webSources := webResults,
                     totalSources := total }
      message := "Found " ++ toString total ++ " relevant sources" }
  else
    { success := false
      data := none
      message := "No relevant documents or web sources found" }

/-! ## Graph (KAG) module: knowledge graph construction

Embedding of `kag_module.py::build_knowledge_graph` over the snapshot
shape of `data/civic_knowledge.json`.  The graph operations follow the
NetworkX `DiGraph` primitives used by the source: `add_node` is
idempotent on the node set, and `add_edge` inserts both endpoints as
nodes when they are absent before recording the edge (replacing the
relation attribute when the same directed pair is added again). -/

structure DeptEntry where
  id : String
  name : String
  dtype : String
deriving Repr, DecidableEq

structure ServiceEntry where
  id : String
  name : String
  department : String
deriving Repr, DecidableEq

structure IssueEntry where
  id : String
  name : String
  service : String
deriving Repr, DecidableEq

structure ProcEntry where
  id : String
  title : String
  department : String
  steps : List String
  timeline : String
  fees : String
  contact : String
deriving Repr, DecidableEq

structure RelEntry where
  src : String
  tgt : String
  rtype : String
deriving Repr, DecidableEq

structure Knowledge where
  departments : List DeptEntry
  services : List ServiceEntry
  issues : List IssueEntry
  procedures : List ProcEntry
  relationships : List RelEntry
deriving Repr, DecidableEq

structure Digraph where
  nodes : List String
  edges : List (String × String × String)
deriving Repr, DecidableEq

def addNode (g : Digraph) (n : String) : Digraph :=
  if n ∈ g.nodes then g else { g with nodes := g.nodes ++ [n] }

def addEdge (g : Digraph) (u v rel : String) : Digraph :=
  let g1 := addNode (addNode g u) v
  if g1.edges.any fun e => e.1 = u && e.2.1 = v then
    { g1 with edges := g1.edges.map fun e =>
        if e.1 = u && e.2.1 = v then (u, v, rel) else e }
  else
    { g1 with edges := g1.edges ++ [(u, v, rel)] }

/-- `KAGModule.build_knowledge_graph`: department, service, issue and
procedure nodes in snapshot order, a `managed_by` edge per service, a
`relates_to` edge per issue, then the explicit relationship edges.
Node attributes carry no graph structure and are not modelled. -/
def buildKnowledgeGraph (k : Knowledge) : Digraph :=
  let g0 : Digraph := { nodes := [], edges := [] }
  let g1 := k.departments.foldl (fun g d => addNode g d.id) g0
  let g2 := k.services.foldl
    (fun g s => addEdge (addNode g s.id) s.id s.department "managed_by") g1
  let g3 := k.issues.foldl
    (fun g i => addEdge (addNode g i.id) i.id i.service "relates_to") g2
  let g4 := k.procedures.foldl (fun g p => addNode g p.id) g3
  k.relationships.foldl (fun g r => addEdge g r.src r.tgt r.rtype) g4

/-- Directed-edge presence, disregarding the relation label. -/
def hasEdge (g : Digraph) (u v : String) : Bool :=
  g.edges.any fun e => e.1 = u && e.2.1 = v

/-- The node identifiers declared by the entity and procedure sections
of a snapshot — the ids against which referential integrity of the
relationship list would be checked. -/
def declaredIds (k : Knowledge) : List String :=
  k.departments.map (fun d => d.id) ++ k.services.map (fun s => s.id)
    ++ k.issues.map (fun i => i.id) ++ k.procedures.map (fun p => p.id)

/-- The selection step of `analyze_query` as one function of the four
scores, for stating lemmas. -/
def bestPair (sC sR sK sS : Nat) : AIModule × Nat :=
  pyMaxFold (AIModule.CAG, sC)
    [(AIModule.RAG, sR), (AIModule.KAG, sK), (AIModule.SLM, sS)]


/-- Modelled on the wording of the specification: among the strategies
attaining the highest score, pick the earliest in the fixed priority
order Cache, Document, Graph, Conversational — that is CAG, RAG, KAG,
SLM.  Stated independently of the implementation for comparison with
it. -/
def specPriorityPick (sC sR sK sS : Nat) : AIModule :=
  let m := max (max (max sC sR) sK) sS
  if sC = m then AIModule.CAG
  else if sR = m then AIModule.RAG
  else if sK = m then AIModule.KAG
  else AIModule.SLM

def Analysis.topScore (a : Analysis) : Nat :=
  max (max (max a.scoreCAG a.scoreRAG) a.scoreKAG) a.scoreSLM

def Analysis.scoreList (a : Analysis) : List Nat :=
  [a.scoreCAG, a.scoreRAG, a.scoreKAG, a.scoreSLM]

def cxController : ControllerState where
  ragAvailable := true
  kagAvailable := true
  cagAvailable := false
  slmAvailable := true
  cagRespond := fun _ => (true, "")
  ragRespond := fun _ => (true, "")
  kagRespond := fun _ => (true, "")


/-- Every edge of a graph has both endpoints among the nodes. -/
def edgeClosed (g : Digraph) : Prop :=
  ∀ e ∈ g.edges, e.1 ∈ g.nodes ∧ e.2.1 ∈ g.nodes

/-- C5 counterexample: a snapshot whose relationship list references two
node ids declared nowhere. -/
def badKnowledge : Knowledge where
  departments := [{ id := "gcc", name := "Greater Chennai Corporation",
                    dtype := "government" }]
  services := []
  issues := []
  procedures := []
  relationships := [{ src := "ghost_issue", tgt := "phantom_dept",
                      rtype := "handled_by" }]


/-- The coarse category that `search_cache` dispatches a lower-cased
query to: the same gate chain as `searchCache`, viewed as data. -/
inductive CacheCategory where
  | emergency : CacheCategory
  | government : CacheCategory
  | civic : CacheCategory
  | zone : CacheCategory
  | quick : CacheCategory
deriving Repr, DecidableEq

def dispatchCategory (ql : List Char) : Option CacheCategory :=
  if anyHasSub ql gateEmergency then some .emergency
  else if anyHasSub ql gateGovernment then some .government
  else if anyHasSub ql gateCivic then some .civic
  else if anyHasSub ql gateZone then some .zone
  else if anyHasSub ql gateQuick then some .quick
  else none

/-- The result kinds a category search can produce on a hit. -/
def categoryKinds : CacheCategory → List String
  | .emergency => ["emergency_contact"]
  | .government => ["government_contact"]
  | .civic => ["civic_service"]
  | .zone => ["zone_contact"]
  | .quick => ["quick_info", "websites"]


/-- Some keyword of the category table occurs in the query with its
cache key present (for the quick-info table, a list-valued row needs no
key check, mirroring the loop). -/
def categoryHasHit (cache : CivicCache) (c : CacheCategory) (ql : List Char) :
    Bool :=
  match c with
  | .emergency => emergencyKeywords.any fun rk =>
      hasSub ql rk.1 && (assocGet cache.emergencyContacts rk.2).isSome
  | .government => govKeywords.any fun rk =>
      hasSub ql rk.1 && (assocGet cache.governmentContacts rk.2).isSome
  | .civic => serviceKeywords.any fun rk =>
      hasSub ql rk.1 && (assocGet cache.civicServicesHelplines rk.2).isSome
  | .zone => zoneKeywords.any fun rk =>
      hasSub ql rk.1 && (assocGet cache.zoneContacts rk.2).isSome
  | .quick => infoKeywords.any fun rk =>
      hasSub ql rk.1 &&
        (match rk.2 with
         | .multi _ => true
         | .single key => (assocGet cache.quickInfo key).isSome)

/-! ## Helper lemmas on routing -/

lemma foldl_weight_count {α : Type} (w : Nat) (p : α → Bool) (l : List α) :
    ∀ n : Nat, l.foldl (fun acc x => if p x then acc + w else acc) n
      = n + w * (l.filter p).length := by
  induction l with
  | nil => intro n; simp
  | cons x xs ih =>
    intro n
    by_cases h : p x <;> simp [List.filter_cons, h, ih] <;> ring

lemma analyzeScore_eq (cfg : RoutingConfig) (ql : List Char) :
    analyzeScore cfg ql
      = (cfg.keywords.filter fun kw => hasSub ql kw).length
        + 2 * (cfg.patterns.filter fun p => reSearch p ql).length := by
  unfold analyzeScore
  rw [foldl_weight_count, foldl_weight_count]
  ring


lemma bestPair_eq_spec (a b c d : Nat) :
    bestPair a b c d
      = (specPriorityPick a b c d, max (max (max a b) c) d) := by
  simp only [bestPair, pyMaxFold, specPriorityPick]
  rcases le_or_lt b a with h1 | h1 <;>
    [simp only [if_neg (show ¬ b > a by omega)];
     simp only [if_pos (show b > a by omega)]]
  · rcases le_or_lt c a with h2 | h2 <;>
      [simp only [if_neg (show ¬ c > a by omega)];
       simp only [if_pos (show c > a by omega)]]
    · rcases le_or_lt d a with h3 | h3 <;>
        [simp only [if_neg (show ¬ d > a by omega)];
         simp only [if_pos (show d > a by omega)]]
      · rw [if_pos (show a = max (max (max a b) c) d by omega)]
        simp only [Prod.mk.injEq]
        exact ⟨trivial, by omega⟩
      · rw [if_neg (show ¬ a = max (max (max a b) c) d by omega),
          if_neg (show ¬ b = max (max (max a b) c) d by omega),
          if_neg (show ¬ c = max (max (max a b) c) d by omega)]
        simp only [Prod.mk.injEq]
        exact ⟨trivial, by omega⟩
    · rcases le_or_lt d c with h3 | h3 <;>
        [simp only [if_neg (show ¬ d > c by omega)];
         simp only [if_pos (show d > c by omega)]]
      · rw [if_neg (show ¬ a = max (max (max a b) c) d by omega),
          if_neg (show ¬ b = max (max (max a b) c) d by omega),
          if_pos (show c = max (max (max a b) c) d by omega)]
        simp only [Prod.mk.injEq]
        exact ⟨trivial, by omega⟩
      · rw [if_neg (show ¬ a = max (max (max a b) c) d by omega),
          if_neg (show ¬ b = max (max (max a b) c) d by omega),
          if_neg (show ¬ c = max (max (max a b) c) d by omega)]
        simp only [Prod.mk.injEq]
        exact ⟨trivial, by omega⟩
  · rcases le_or_lt c b with h2 | h2 <;>
      [simp only [if_neg (show ¬ c > b by omega)];
       simp only [if_pos (show c > b by omega)]]
    · rcases le_or_lt d b with h3 | h3 <;>
        [simp only [if_neg (show ¬ d > b by omega)];
         simp only [if_pos (show d > b by omega)]]
      · rw [if_neg (show ¬ a = max (max (max a b) c) d by omega),
          if_pos (show b = max (max (max a b) c) d by omega)]
        simp only [Prod.mk.injEq]
        exact ⟨trivial, by omega⟩
      · rw [if_neg (show ¬ a = max (max (max a b) c) d by omega),
          if_neg (show ¬ b = max (max (max a b) c) d by omega),
          if_neg (show ¬ c = max (max (max a b) c) d by omega)]
        simp only [Prod.mk.injEq]
        exact ⟨trivial, by omega⟩
    · rcases le_or_lt d c with h3 | h3 <;>
        [simp only [if_neg (show ¬ d > c by omega)];
         simp only [if_pos (show d > c by omega)]]
      · rw [if_neg (show ¬ a = max (max (max a b) c) d by omega),
          if_neg (show ¬ b = max (max (max a b) c) d by omega),
          if_pos (show c = max (max (max a b) c) d by omega)]
        simp only [Prod.mk.injEq]
        exact ⟨trivial, by omega⟩
      · rw [if_neg (show ¬ a = max (max (max a b) c) d by omega),
          if_neg (show ¬ b = max (max (max a b) c) d by omega),
          if_neg (show ¬ c = max (max (max a b) c) d by omega)]
        simp only [Prod.mk.injEq]
        exact ⟨trivial, by omega⟩



lemma scoreDict_spec (a b c d : Nat) :
    scoreDict a b c d (specPriorityPick a b c d)
      = max (max (max a b) c) d := by
  simp only [specPriorityPick]
  split_ifs with h1 h2 h3
  · simpa [scoreDict] using h1
  · simpa [scoreDict] using h2
  · simpa [scoreDict] using h3
  · show d = _
    omega

lemma analyzeQuery_selected (q : List Char) :
    (analyzeQuery q).selectedModule
      = (if scoreDict (analyzeScore cagConfig (lowerL q))
            (analyzeScore ragConfig (lowerL q))
            (analyzeScore kagConfig (lowerL q))
            (analyzeScore slmConfig (lowerL q))
            (bestPair (analyzeScore cagConfig (lowerL q))
              (analyzeScore ragConfig (lowerL q))
              (analyzeScore kagConfig (lowerL q))
              (analyzeScore slmConfig (lowerL q))).1 = 0
         then AIModule.SLM
         else (bestPair (analyzeScore cagConfig (lowerL q))
            (analyzeScore ragConfig (lowerL q))
            (analyzeScore kagConfig (lowerL q))
            (analyzeScore slmConfig (lowerL q))).1) := rfl

lemma analyzeQuery_scoreCAG (q : List Char) :
    (analyzeQuery q).scoreCAG = analyzeScore cagConfig (lowerL q) := rfl
lemma analyzeQuery_scoreRAG (q : List Char) :
    (analyzeQuery q).scoreRAG = analyzeScore ragConfig (lowerL q) := rfl
lemma analyzeQuery_scoreKAG (q : List Char) :
    (analyzeQuery q).scoreKAG = analyzeScore kagConfig (lowerL q) := rfl
lemma analyzeQuery_scoreSLM (q : List Char) :
    (analyzeQuery q).scoreSLM = analyzeScore slmConfig (lowerL q) := rfl
lemma analyzeQuery_confidence (q : List Char) :
    (analyzeQuery q).confidence
      = (scoreDict (analyzeScore cagConfig (lowerL q))
            (analyzeScore ragConfig (lowerL q))
            (analyzeScore kagConfig (lowerL q))
            (analyzeScore slmConfig (lowerL q))
            (bestPair (analyzeScore cagConfig (lowerL q))
              (analyzeScore ragConfig (lowerL q))
              (analyzeScore kagConfig (lowerL q))
              (analyzeScore slmConfig (lowerL q))).1 : ℚ)
          / ((max (analyzeScore cagConfig (lowerL q)
                    + analyzeScore ragConfig (lowerL q)
                    + analyzeScore kagConfig (lowerL q)
                    + analyzeScore slmConfig (lowerL q))
                1 : Nat) : ℚ) := rfl

/-! ## C1: tie-break follows the fixed priority order -/

/-- C1.  Router tie-break: whenever the highest score is nonzero and at
least two strategies attain it, the module selected by `analyze_query`
is the one given by the fixed priority order CAG, RAG, KAG, SLM
(Cache, Document, Graph, Conversational) among the top scorers. -/
theorem router_tiebreak (q : List Char)
    (hpos : 0 < (analyzeQuery q).topScore)
    (_htie : 2 ≤ (analyzeQuery q).scoreList.count (analyzeQuery q).topScore) :
    (analyzeQuery q).selectedModule
      = specPriorityPick (analyzeQuery q).scoreCAG (analyzeQuery q).scoreRAG
          (analyzeQuery q).scoreKAG (analyzeQuery q).scoreSLM := by
  rw [analyzeQuery_selected, analyzeQuery_scoreCAG, analyzeQuery_scoreRAG,
    analyzeQuery_scoreKAG, analyzeQuery_scoreSLM]
  rw [bestPair_eq_spec, scoreDict_spec]
  have hpos' := hpos
  rw [Analysis.topScore, analyzeQuery_scoreCAG, analyzeQuery_scoreRAG,
    analyzeQuery_scoreKAG, analyzeQuery_scoreSLM] at hpos'
  rw [if_neg (by omega)]

/-- C1 witness: the query `hospital report` scores 1 for both CAG and
RAG, 0 elsewhere, and the router selects CAG, the earlier strategy in
the priority order. -/
theorem router_tiebreak_witness :
    0 < (analyzeQuery (cl "hospital report")).topScore
      ∧ 2 ≤ (analyzeQuery (cl "hospital report")).scoreList.count
          (analyzeQuery (cl "hospital report")).topScore
      ∧ (analyzeQuery (cl "hospital report")).selectedModule
        = specPriorityPick (analyzeQuery (cl "hospital report")).scoreCAG
            (analyzeQuery (cl "hospital report")).scoreRAG
            (analyzeQuery (cl "hospital report")).scoreKAG
            (analyzeQuery (cl "hospital report")).scoreSLM :=
  ⟨by decide, by decide, router_tiebreak (cl "hospital report")
    (by decide) (by decide)⟩

/-! ## C2: the scoring formula -/

/-- C2.  Router scoring: for every query and module, the score equals
the number of the module keywords occurring as substrings of the
lower-cased query plus twice the number of the module patterns matching
somewhere in it; the scores of different modules are computed from the
same query independently of one another. -/
theorem router_score_formula (q : List Char) (m : AIModule) :
    analyzeScore (configOf m) (lowerL q)
      = ((configOf m).keywords.filter fun kw => hasSub (lowerL q) kw).length
        + 2 * ((configOf m).patterns.filter fun p => reSearch p (lowerL q)).length :=
  analyzeScore_eq (configOf m) (lowerL q)

/-! ## C8: all-zero fallback -/

/-- C8.  All-zero fallback: when no keyword and no pattern of any of the
four strategies matches the lower-cased query, every reported score is
0, the SLM (Conversational) module is selected, and the reported
confidence is exactly 0. -/
theorem router_allzero (q : List Char)
    (hC : (cagConfig.keywords.all fun kw => !hasSub (lowerL q) kw) = true
        ∧ (cagConfig.patterns.all fun p => !reSearch p (lowerL q)) = true)
    (hR : (ragConfig.keywords.all fun kw => !hasSub (lowerL q) kw) = true
        ∧ (ragConfig.patterns.all fun p => !reSearch p (lowerL q)) = true)
    (hK : (kagConfig.keywords.all fun kw => !hasSub (lowerL q) kw) = true
        ∧ (kagConfig.patterns.all fun p => !reSearch p (lowerL q)) = true)
    (hS : (slmConfig.keywords.all fun kw => !hasSub (lowerL q) kw) = true
        ∧ (slmConfig.patterns.all fun p => !reSearch p (lowerL q)) = true) :
    (analyzeQuery q).selectedModule = AIModule.SLM
      ∧ (analyzeQuery q).scoreCAG = 0 ∧ (analyzeQuery q).scoreRAG = 0
      ∧ (analyzeQuery q).scoreKAG = 0 ∧ (analyzeQuery q).scoreSLM = 0
      ∧ (analyzeQuery q).confidence = 0 := by
  have score0 : ∀ cfg : RoutingConfig,
      (cfg.keywords.all fun kw => !hasSub (lowerL q) kw) = true →
      (cfg.patterns.all fun p => !reSearch p (lowerL q)) = true →
      analyzeScore cfg (lowerL q) = 0 := by
    intro cfg h1 h2
    rw [analyzeScore_eq]
    have e1 : (cfg.keywords.filter fun kw => hasSub (lowerL q) kw) = [] := by
      rw [List.filter_eq_nil_iff]
      intro a ha
      have := (List.all_eq_true.mp h1) a ha
      simpa using this
    have e2 : (cfg.patterns.filter fun p => reSearch p (lowerL q)) = [] := by
      rw [List.filter_eq_nil_iff]
      intro a ha
      have := (List.all_eq_true.mp h2) a ha
      simpa using this
    rw [e1, e2]
    rfl
  have hc0 := score0 cagConfig hC.1 hC.2
  have hr0 := score0 ragConfig hR.1 hR.2
  have hk0 := score0 kagConfig hK.1 hK.2
  have hs0 := score0 slmConfig hS.1 hS.2
  refine ⟨?_, ?_, ?_, ?_, ?_, ?_⟩
  · rw [analyzeQuery_selected, hc0, hr0, hk0, hs0]
    rfl
  · rw [analyzeQuery_scoreCAG, hc0]
  · rw [analyzeQuery_scoreRAG, hr0]
  · rw [analyzeQuery_scoreKAG, hk0]
  · rw [analyzeQuery_scoreSLM, hs0]
  · rw [analyzeQuery_confidence, hc0, hr0, hk0, hs0]
    norm_num [bestPair, pyMaxFold, scoreDict]

/-- C8 witness: the query `zzz` matches no keyword and no pattern of
any strategy, so it routes to SLM with all scores 0 and confidence 0. -/
theorem router_allzero_witness :
    (cagConfig.keywords.all fun kw => !hasSub (lowerL (cl "zzz")) kw) = true
      ∧ (analyzeQuery (cl "zzz")).selectedModule = AIModule.SLM
      ∧ (analyzeQuery (cl "zzz")).confidence = 0 :=
  ⟨by decide,
   (router_allzero (cl "zzz") ⟨by decide, by decide⟩ ⟨by decide, by decide⟩
     ⟨by decide, by decide⟩ ⟨by decide, by decide⟩).1,
   (router_allzero (cl "zzz") ⟨by decide, by decide⟩ ⟨by decide, by decide⟩
     ⟨by decide, by decide⟩ ⟨by decide, by decide⟩).2.2.2.2.2⟩

/-! ## C4: conversational totality -/

lemma classify_mem (q : List Char) :
    classifyQueryType q ∈
      ["greeting", "who_are_you", "capabilities", "thanks", "goodbye",
       "help", "how_it_works", "about_chennai", "feedback", "default"] := by
  simp only [classifyQueryType]
  split_ifs <;> simp

lemma canned_nonempty :
    ∀ s ∈ ["greeting", "who_are_you", "capabilities", "thanks", "goodbye",
        "help", "how_it_works", "about_chennai", "feedback", "default"],
      lookupD fallbackResponses s (lookupD fallbackResponses "default" "") ≠ "" := by
  decide

/-- C4.  Conversational totality: for every input text, the offline
`get_response` of the SLM module reports success and carries a non-empty
canned response — it never returns an empty or failed result. -/
theorem conversational_total (q : List Char) :
    (slmGetResponse q).success = true
      ∧ ∃ d, (slmGetResponse q).data = some d ∧ d.response ≠ "" := by
  refine ⟨rfl, ⟨_, rfl, ?_⟩⟩
  exact canned_nonempty _ (classify_mem q)

/-! ## C3: fallback labelling in the controller -/

/-- C3 counterexample: with the CAG module unavailable, the query
`fire emergency number` (routed to CAG) is answered through the SLM
fallback, but the reported module label is the string `SLM`, never
`fallback`. -/
theorem assembler_fallback_cx :
    (analyzeQuery (cl "fire emergency number")).selectedModule = AIModule.CAG
      ∧ availableFor cxController AIModule.CAG = false
      ∧ (routeQuery cxController (cl "fire emergency number")).success = true
      ∧ (routeQuery cxController (cl "fire emergency number")).selectedModule = "SLM"
      ∧ ¬(routeQuery cxController
          (cl "fire emergency number")).selectedModule = "fallback" := by
  refine ⟨by decide, rfl, by decide, by decide, by decide⟩

/-- C3 amended: when the router pick is unavailable and the SLM module
is available, `route_query` still returns a successful response whose
text is the formatted canned SLM answer, but the reported module label
is `SLM` rather than `fallback`; a `Failed` result from an available
module is passed through without triggering any fallback. -/
theorem assembler_fallback_amended (st : ControllerState) (q : List Char)
    (hun : availableFor st (analyzeQuery q).selectedModule = false)
    (hslm : st.slmAvailable = true) :
    (routeQuery st q).success = true
      ∧ (routeQuery st q).selectedModule = "SLM"
      ∧ (routeQuery st q).responseText = slmFormatResponse (slmGetResponse q) := by
  cases h : (analyzeQuery q).selectedModule with
  | CAG =>
    rw [h] at hun
    simp only [availableFor] at hun
    simp only [routeQuery, h, hun, hslm]
    simp [slmRespond, slmGetResponse]
  | RAG =>
    rw [h] at hun
    simp only [availableFor] at hun
    simp only [routeQuery, h, hun, hslm]
    simp [slmRespond, slmGetResponse]
  | KAG =>
    rw [h] at hun
    simp only [availableFor] at hun
    simp only [routeQuery, h, hun, hslm]
    simp [slmRespond, slmGetResponse]
  | SLM =>
    rw [h] at hun
    simp only [availableFor] at hun
    rw [hun] at hslm
    exact absurd hslm (by decide)

/-- C3 amended witness at a concrete controller state and query. -/
theorem assembler_fallback_amended_witness :
    availableFor cxController
        (analyzeQuery (cl "fire emergency number")).selectedModule = false
      ∧ cxController.slmAvailable = true
      ∧ (routeQuery cxController (cl "fire emergency number")).selectedModule
          = "SLM" :=
  ⟨by decide, rfl,
   (assembler_fallback_amended cxController (cl "fire emergency number")
     (by decide) rfl).2.1⟩

/-! ## C9: zone-table shadowing -/

lemma startsWith_append_left :
    ∀ (s n m : List Char), startsWith s (n ++ m) = true →
      startsWith s n = true := by
  intro s n
  induction n generalizing s with
  | nil => intro m _; cases s <;> rfl
  | cons a t ih =>
    intro m h
    cases s with
    | nil => simp [startsWith] at h
    | cons c u =>
      simp only [List.cons_append, startsWith, Bool.and_eq_true] at h ⊢
      exact ⟨h.1, ih u m h.2⟩

lemma hasSub_append_left :
    ∀ (s n m : List Char), hasSub s (n ++ m) = true → hasSub s n = true := by
  intro s
  induction s with
  | nil =>
    intro n m h
    cases n with
    | nil => rfl
    | cons a t =>
      rw [hasSub] at h
      cases m <;> simp [startsWith] at h
  | cons c u ih =>
    intro n m h
    rw [hasSub] at h ⊢
    simp only [Bool.or_eq_true] at h ⊢
    rcases h with h1 | h1
    · exact Or.inl (startsWith_append_left _ n m h1)
    · exact Or.inr (ih n m h1)

/-- C9.  Zone shadowing: the zone lookup over the loaded cache can
never return the `zone_2_north_east` entry, because every query
containing `north east` also contains `north`, which is checked first;
such queries always get the Zone 1 (North) contact. -/
lemma searchZone_north (q : List Char) (hn : hasSub q (cl "north") = true) :
    searchZoneInfo civicCache q
      = some (CacheResult.zoneContact "North" "044-28451300 Ext.233"
          "Water supply, complaints, maintenance") := by
  have ha : assocGet civicCache.zoneContacts "zone_1_north"
      = some "044-28451300 Ext.233" := rfl
  have ht : String.mk (pyTitle (cl "north")) = "North" := rfl
  rw [searchZoneInfo, zoneKeywords]
  simp only [firstHit, hn, if_true, ha, ht]

theorem zone_shadowing (q : List Char) :
    searchZoneInfo civicCache q
        ≠ some (CacheResult.zoneContact "North East" "044-28451300 Ext.213"
            "Water supply, complaints, maintenance")
      ∧ (hasSub q (cl "north east") = true →
          searchZoneInfo civicCache q
            = some (CacheResult.zoneContact "North" "044-28451300 Ext.233"
                "Water supply, complaints, maintenance")) := by
  have hsplit : cl "north east" = cl "north" ++ cl " east" := by decide
  have key : hasSub q (cl "north east") = true → hasSub q (cl "north") = true := by
    intro h
    rw [hsplit] at h
    exact hasSub_append_left q (cl "north") (cl " east") h
  constructor
  · intro hcontra
    by_cases hn : hasSub q (cl "north") = true
    · rw [searchZone_north q hn] at hcontra
      exact absurd (Option.some.inj hcontra) (by decide)
    · have hn' : hasSub q (cl "north") = false := by
        cases hh : hasSub q (cl "north")
        · rfl
        · exact absurd hh hn
      have hne : hasSub q (cl "north east") = false := by
        cases hh : hasSub q (cl "north east")
        · rfl
        · exact absurd (key hh) hn
      have h3 : assocGet civicCache.zoneContacts "zone_3_central"
          = some "044-28451300 Ext.212" := rfl
      have h4 : assocGet civicCache.zoneContacts "zone_4_south_west"
          = some "044-28451300 Ext.386" := rfl
      have h5 : assocGet civicCache.zoneContacts "zone_5_south"
          = some "044-28451300 Ext.211" := rfl
      have h6 : assocGet civicCache.zoneContacts "zone_6_adyar"
          = some "044-24912345" := rfl
      have h7 : assocGet civicCache.zoneContacts "zone_7_anna_nagar"
          = some "044-26152345" := rfl
      have h8 : assocGet civicCache.zoneContacts "zone_8_teynampet"
          = some "044-24332345" := rfl
      rw [searchZoneInfo, zoneKeywords] at hcontra
      simp only [firstHit, hn', hne, Bool.false_eq_true, if_false,
        h3, h4, h5, h6, h7, h8] at hcontra
      split_ifs at hcontra <;> exact absurd hcontra (by decide)
  · intro h
    exact searchZone_north q (key h)

/-- C9 witness: the query `north east ward` contains `north east` and
receives the Zone 1 (North) contact. -/
theorem zone_shadowing_witness :
    hasSub (cl "north east ward") (cl "north east") = true
      ∧ searchZoneInfo civicCache (cl "north east ward")
          = some (CacheResult.zoneContact "North" "044-28451300 Ext.233"
              "Water supply, complaints, maintenance") :=
  ⟨by decide, (zone_shadowing (cl "north east ward")).2 (by decide)⟩

/-! ## C10: the document failure branch is unreachable -/

/-- C10.  The simulated external-source search always returns exactly
two results for the limit used by `get_response`, so for every query and
every state of the local document hit list (including the empty one from
a missing or failed index) the document module reports success and never
reaches its no-sources failure branch. -/
theorem document_branch_unreachable (docResults : List String) (q : String) :
    (searchWeb q 2).length = 2
      ∧ (ragGetResponse docResults q).success = true
      ∧ (ragGetResponse docResults q).data ≠ none := by
  have hw : (searchWeb q 2).length = 2 := rfl
  have hcond : docResults.length ≠ 0 ∨ (searchWeb q 2).length ≠ 0 :=
    Or.inr (by rw [hw]; omega)
  refine ⟨hw, ?_, ?_⟩ <;>
    simp only [ragGetResponse, if_pos hcond] <;>
    simp

/-! ## C5: graph loading and dangling edges -/

lemma addNode_edges (g : Digraph) (n : String) :
    (addNode g n).edges = g.edges := by
  unfold addNode
  split <;> rfl

lemma addNode_nodes_mono (g : Digraph) (n x : String) (h : x ∈ g.nodes) :
    x ∈ (addNode g n).nodes := by
  unfold addNode
  split
  · exact h
  · exact List.mem_append_left _ h

lemma addNode_nodes_self (g : Digraph) (n : String) : n ∈ (addNode g n).nodes := by
  unfold addNode
  split
  · assumption
  · exact List.mem_append_right _ (List.mem_singleton.mpr rfl)

lemma addEdge_nodes_mono (g : Digraph) (u v rel x : String) (h : x ∈ g.nodes) :
    x ∈ (addEdge g u v rel).nodes := by
  simp only [addEdge]
  split <;> exact addNode_nodes_mono _ _ _ (addNode_nodes_mono _ _ _ h)

lemma addEdge_hasEdge_self (g : Digraph) (u v rel : String) :
    hasEdge (addEdge g u v rel) u v = true := by
  simp only [addEdge, hasEdge]
  split
  · next hex =>
    rcases List.any_eq_true.mp hex with ⟨e, he, hkey⟩
    refine List.any_eq_true.mpr ⟨(u, v, rel), ?_, by simp⟩
    refine List.mem_map.mpr ⟨e, he, ?_⟩
    rw [if_pos hkey]
  · exact List.any_eq_true.mpr ⟨(u, v, rel),
      List.mem_append_right _ (List.mem_singleton.mpr rfl), by simp⟩

lemma addEdge_hasEdge_mono (g : Digraph) (u v rel x y : String)
    (h : hasEdge g x y = true) : hasEdge (addEdge g u v rel) x y = true := by
  unfold addEdge
  have h' : hasEdge (addNode (addNode g u) v) x y = true := by
    unfold hasEdge at h ⊢
    rw [addNode_edges, addNode_edges]
    exact h
  unfold hasEdge at h' ⊢
  rcases List.any_eq_true.mp h' with ⟨e, he, hkey⟩
  simp only [addEdge]
  split
  · refine List.any_eq_true.mpr ?_
    by_cases hm : (decide (e.1 = u) && decide (e.2.1 = v)) = true
    · refine ⟨(u, v, rel), List.mem_map.mpr ⟨e, he, by rw [if_pos hm]⟩, ?_⟩
      simp only [Bool.and_eq_true, decide_eq_true_eq] at hkey hm ⊢
      exact ⟨hm.1 ▸ hkey.1, hm.2 ▸ hkey.2⟩
    · exact ⟨e, List.mem_map.mpr ⟨e, he, by rw [if_neg hm]⟩, hkey⟩
  · exact List.any_eq_true.mpr ⟨e, List.mem_append_left _ he, hkey⟩

lemma addNode_hasEdge (g : Digraph) (n x y : String) :
    hasEdge (addNode g n) x y = hasEdge g x y := by
  unfold hasEdge
  rw [addNode_edges]


lemma edgeClosed_addNode (g : Digraph) (n : String) (h : edgeClosed g) :
    edgeClosed (addNode g n) := by
  intro e he
  rw [addNode_edges] at he
  exact ⟨addNode_nodes_mono _ _ _ (h e he).1, addNode_nodes_mono _ _ _ (h e he).2⟩

lemma edgeClosed_addEdge (g : Digraph) (u v rel : String) (h : edgeClosed g) :
    edgeClosed (addEdge g u v rel) := by
  have hg1 : edgeClosed (addNode (addNode g u) v) :=
    edgeClosed_addNode _ _ (edgeClosed_addNode _ _ h)
  have hu : u ∈ (addNode (addNode g u) v).nodes :=
    addNode_nodes_mono _ _ _ (addNode_nodes_self g u)
  have hv : v ∈ (addNode (addNode g u) v).nodes := addNode_nodes_self _ v
  simp only [addEdge]
  split
  · intro e he
    rcases List.mem_map.mp he with ⟨e0, he0, heq⟩
    by_cases hm : (decide (e0.1 = u) && decide (e0.2.1 = v)) = true
    · rw [if_pos hm] at heq
      subst heq
      exact ⟨hu, hv⟩
    · rw [if_neg hm] at heq
      subst heq
      exact hg1 e0 he0
  · intro e he
    rcases List.mem_append.mp he with he | he
    · exact hg1 e he
    · rcases List.mem_singleton.mp he with rfl
      exact ⟨hu, hv⟩

lemma foldl_preserve {α β : Type} (P : α → Prop) (f : α → β → α)
    (hf : ∀ a b, P a → P (f a b)) :
    ∀ (l : List β) (a : α), P a → P (l.foldl f a)
  | [], _, h => h
  | b :: l, a, h => foldl_preserve P f hf l (f a b) (hf a b h)

lemma buildKnowledgeGraph_closed (k : Knowledge) :
    edgeClosed (buildKnowledgeGraph k) := by
  unfold buildKnowledgeGraph
  apply foldl_preserve _ _ (fun g r h => edgeClosed_addEdge g r.src r.tgt r.rtype h)
  apply foldl_preserve _ _ (fun g p h => edgeClosed_addNode g p.id h)
  apply foldl_preserve _ _
    (fun g i h => edgeClosed_addEdge _ i.id i.service "relates_to"
      (edgeClosed_addNode g i.id h))
  apply foldl_preserve _ _
    (fun g s h => edgeClosed_addEdge _ s.id s.department "managed_by"
      (edgeClosed_addNode g s.id h))
  apply foldl_preserve _ _ (fun g d h => edgeClosed_addNode g d.id h)
  intro e he
  simp at he

lemma relFold_hasEdge (r : RelEntry) :
    ∀ (l : List RelEntry) (g : Digraph), r ∈ l →
      hasEdge (l.foldl (fun g r => addEdge g r.src r.tgt r.rtype) g) r.src r.tgt
        = true := by
  intro l
  induction l with
  | nil => intro g h; exact absurd h (List.not_mem_nil r)
  | cons r0 rest ih =>
    intro g h
    rcases List.mem_cons.mp h with rfl | h
    · simp only [List.foldl_cons]
      exact foldl_preserve (fun g => hasEdge g r.src r.tgt = true) _
        (fun a b hh => addEdge_hasEdge_mono a b.src b.tgt b.rtype _ _ hh)
        rest _ (addEdge_hasEdge_self g r.src r.tgt r.rtype)
    · exact ih _ h

/-- C5 counterexample: building the graph from a snapshot with a
relationship whose endpoints are declared nowhere succeeds and silently
admits the dangling edge, auto-creating its endpoint nodes — there is no
load-time referential-integrity failure. -/
theorem graph_dangling_admitted_cx :
    hasEdge (buildKnowledgeGraph badKnowledge) "ghost_issue" "phantom_dept" = true
      ∧ "ghost_issue" ∉ declaredIds badKnowledge
      ∧ "phantom_dept" ∉ declaredIds badKnowledge
      ∧ "ghost_issue" ∈ (buildKnowledgeGraph badKnowledge).nodes := by
  refine ⟨by decide, by decide, by decide, by decide⟩

/-- C5 amended: graph building is total — every relationship of the
snapshot is admitted as an edge of the built graph, whether or not its
endpoints are declared, and after building every edge trivially has both
endpoints among the nodes because `add_edge` creates missing
endpoints. -/
theorem graph_build_total_amended (k : Knowledge) (r : RelEntry)
    (hr : r ∈ k.relationships) :
    hasEdge (buildKnowledgeGraph k) r.src r.tgt = true
      ∧ ∀ e ∈ (buildKnowledgeGraph k).edges,
          e.1 ∈ (buildKnowledgeGraph k).nodes
            ∧ e.2.1 ∈ (buildKnowledgeGraph k).nodes := by
  constructor
  · unfold buildKnowledgeGraph
    exact relFold_hasEdge r k.relationships _ hr
  · exact buildKnowledgeGraph_closed k

/-- C5 amended witness at the concrete malformed snapshot. -/
theorem graph_build_total_amended_witness :
    ({ src := "ghost_issue", tgt := "phantom_dept", rtype := "handled_by" }
        ∈ badKnowledge.relationships)
      ∧ hasEdge (buildKnowledgeGraph badKnowledge) "ghost_issue" "phantom_dept"
          = true :=
  ⟨by decide,
   (graph_build_total_amended badKnowledge
     { src := "ghost_issue", tgt := "phantom_dept", rtype := "handled_by" }
     (by decide)).1⟩

/-! ## C6: cache round-trip -/




lemma firstHit_isSome (data : List (String × String)) (q : List Char) :
    ∀ table : List (List Char × String),
      (table.any fun rk =>
        hasSub q rk.1 && (assocGet data rk.2).isSome) = true →
      ∃ kw key v, firstHit table data q = some (kw, key, v) := by
  intro table
  induction table with
  | nil => intro h; simp at h
  | cons rk rest ih =>
    intro h
    obtain ⟨kw, key⟩ := rk
    simp only [List.any_cons, Bool.or_eq_true] at h
    cases hsub : hasSub q kw with
    | false =>
      rcases h with h | h
      · rw [hsub] at h
        simp at h
      · simp only [firstHit, hsub, Bool.false_eq_true, if_false]
        exact ih h
    | true =>
      cases ha : assocGet data key with
      | some v =>
        exact ⟨kw, key, v, by simp [firstHit, hsub, ha]⟩
      | none =>
        simp only [firstHit, hsub, if_true, ha]
        rcases h with h | h
        · rw [ha] at h
          simp at h
        · exact ih h

lemma searchEmergency_hit (cache : CivicCache) (q : List Char)
    (h : categoryHasHit cache .emergency q = true) :
    ∃ r, searchEmergencyContacts cache q = some r
      ∧ r.kind = "emergency_contact" := by
  obtain ⟨kw, key, v, hfh⟩ := firstHit_isSome cache.emergencyContacts q _ h
  refine ⟨CacheResult.emergencyContact (String.mk (pyTitle kw)) v
    (if key = "fire" ∨ key = "police" ∨ key = "ambulance" then "24x7"
     else "Office hours"), ?_, rfl⟩
  simp only [searchEmergencyContacts, hfh]

lemma searchGovernment_hit (cache : CivicCache) (q : List Char)
    (h : categoryHasHit cache .government q = true) :
    ∃ r, searchGovernmentContacts cache q = some r
      ∧ r.kind = "government_contact" := by
  obtain ⟨kw, key, v, hfh⟩ := firstHit_isSome cache.governmentContacts q _ h
  refine ⟨CacheResult.governmentContact (String.mk (pyTitle kw)) v
    "Office hours (9:30 AM - 5:30 PM)", ?_, rfl⟩
  simp only [searchGovernmentContacts, hfh]

lemma searchCivic_hit (cache : CivicCache) (q : List Char)
    (h : categoryHasHit cache .civic q = true) :
    ∃ r, searchCivicServices cache q = some r
      ∧ r.kind = "civic_service" := by
  obtain ⟨kw, key, v, hfh⟩ := firstHit_isSome cache.civicServicesHelplines q _ h
  refine ⟨CacheResult.civicService (String.mk (pyTitle kw)) v "Office hours",
    ?_, rfl⟩
  simp only [searchCivicServices, hfh]

lemma searchZone_hit (cache : CivicCache) (q : List Char)
    (h : categoryHasHit cache .zone q = true) :
    ∃ r, searchZoneInfo cache q = some r
      ∧ r.kind = "zone_contact" := by
  obtain ⟨kw, key, v, hfh⟩ := firstHit_isSome cache.zoneContacts q _ h
  refine ⟨CacheResult.zoneContact (String.mk (pyTitle kw)) v
    "Water supply, complaints, maintenance", ?_, rfl⟩
  simp only [searchZoneInfo, hfh]

lemma quickLoop_hit (data : List (String × String)) (q : List Char) :
    ∀ table : List (List Char × QuickTarget),
      (table.any fun rk =>
        hasSub q rk.1 &&
          (match rk.2 with
           | .multi _ => true
           | .single key => (assocGet data key).isSome)) = true →
      ∃ r, quickLoop data q table = some r
        ∧ (r.kind = "quick_info" ∨ r.kind = "websites") := by
  intro table
  induction table with
  | nil => intro h; simp at h
  | cons rk rest ih =>
    intro h
    obtain ⟨kw, t⟩ := rk
    simp only [List.any_cons, Bool.or_eq_true] at h
    cases hsub : hasSub q kw with
    | false =>
      rcases h with h | h
      · rw [hsub] at h
        simp at h
      · simp only [quickLoop, hsub, Bool.false_eq_true, if_false]
        exact ih h
    | true =>
      cases t with
      | multi keys =>
        refine ⟨CacheResult.websites (keys.filterMap fun k =>
          (assocGet data k).map fun v => (k, v)), ?_, Or.inr rfl⟩
        simp [quickLoop, hsub]
      | single key =>
        cases ha : assocGet data key with
        | some v =>
          refine ⟨CacheResult.quickInfo (String.mk (pyTitle kw)) v, ?_, Or.inl rfl⟩
          simp [quickLoop, hsub, ha]
        | none =>
          simp only [quickLoop, hsub, if_true, ha]
          rcases h with h | h
          · simp [ha] at h
          · exact ih h

lemma searchQuick_hit (cache : CivicCache) (q : List Char)
    (h : categoryHasHit cache .quick q = true) :
    ∃ r, searchQuickInfo cache q = some r
      ∧ (r.kind = "quick_info" ∨ r.kind = "websites") :=
  quickLoop_hit cache.quickInfo q infoKeywords h

/-- C6 counterexample: `medical` is a keyword of the emergency table
(mapped to the ambulance contact), the query `medical` contains it, and
the ambulance key is present in the loaded cache, yet `search_cache`
returns nothing because no coarse gate keyword occurs in the query. -/
theorem cache_roundtrip_cx :
    (cl "medical", "ambulance") ∈ emergencyKeywords
      ∧ hasSub (lowerL (cl "medical")) (cl "medical") = true
      ∧ (assocGet civicCache.emergencyContacts "ambulance").isSome = true
      ∧ searchCache civicCache (cl "medical") = none := by
  refine ⟨by decide, by decide, by decide, by decide⟩

/-- C6 amended: for every query that `search_cache` dispatches to a
category table and that contains some keyword of that table with its
cache key present, the lookup returns a `Found` result whose kind is
that category's declared kind (the quick-info table declares both
`quick_info` and the `websites` kind of its list-valued row); in
particular the query `fire emergency number` yields an
`emergency_contact` result whose number is the configured fire contact
value `101`. -/
theorem cache_roundtrip_amended (q : List Char) (c : CacheCategory)
    (hdisp : dispatchCategory (lowerL q) = some c)
    (hhit : categoryHasHit civicCache c (lowerL q) = true) :
    (∃ r, searchCache civicCache q = some r ∧ r.kind ∈ categoryKinds c)
      ∧ searchCache civicCache (cl "fire emergency number")
          = some (CacheResult.emergencyContact "Fire" "101" "24x7") := by
  refine ⟨?_, by decide⟩
  simp only [dispatchCategory] at hdisp
  split_ifs at hdisp with g1 g2 g3 g4 g5
  · rcases Option.some.inj hdisp
    obtain ⟨r, hr, hk⟩ := searchEmergency_hit civicCache (lowerL q) hhit
    refine ⟨r, ?_, by simp [categoryKinds, hk]⟩
    simp only [searchCache, if_pos g1]
    exact hr
  · rcases Option.some.inj hdisp
    obtain ⟨r, hr, hk⟩ := searchGovernment_hit civicCache (lowerL q) hhit
    refine ⟨r, ?_, by simp [categoryKinds, hk]⟩
    simp only [searchCache, if_neg g1, if_pos g2]
    exact hr
  · rcases Option.some.inj hdisp
    obtain ⟨r, hr, hk⟩ := searchCivic_hit civicCache (lowerL q) hhit
    refine ⟨r, ?_, by simp [categoryKinds, hk]⟩
    simp only [searchCache, if_neg g1, if_neg g2, if_pos g3]
    exact hr
  · rcases Option.some.inj hdisp
    obtain ⟨r, hr, hk⟩ := searchZone_hit civicCache (lowerL q) hhit
    refine ⟨r, ?_, by simp [categoryKinds, hk]⟩
    simp only [searchCache, if_neg g1, if_neg g2, if_neg g3, if_pos g4]
    exact hr
  · rcases Option.some.inj hdisp
    obtain ⟨r, hr, hk⟩ := searchQuick_hit civicCache (lowerL q) hhit
    refine ⟨r, ?_, ?_⟩
    · simp only [searchCache, if_neg g1, if_neg g2, if_neg g3, if_neg g4,
        if_pos g5]
      exact hr
    · rcases hk with hk | hk <;> simp [categoryKinds, hk]

/-- C6 amended witness at the query `fire emergency number`. -/
theorem cache_roundtrip_amended_witness :
    dispatchCategory (lowerL (cl "fire emergency number"))
        = some CacheCategory.emergency
      ∧ categoryHasHit civicCache CacheCategory.emergency
          (lowerL (cl "fire emergency number")) = true
      ∧ ∃ r, searchCache civicCache (cl "fire emergency number") = some r
          ∧ r.kind ∈ categoryKinds CacheCategory.emergency :=
  ⟨by decide, by decide,
   (cache_roundtrip_amended (cl "fire emergency number") CacheCategory.emergency
     (by decide) (by decide)).1⟩


/-! ## C7: chunking invariant -/

lemma flatten_splitNN : ∀ (acc s : List Char),
    (splitNN acc s).flatten = acc.reverse ++ rmNN s := by
  intro acc s
  induction acc, s using splitNN.induct with
  | case1 acc => simp [splitNN, rmNN]
  | case2 acc c => simp [splitNN, rmNN]
  | case3 acc a b t h ih =>
    rw [splitNN, rmNN, if_pos h, if_pos h]
    simp [ih]
  | case4 acc a b t h ih =>
    rw [splitNN, rmNN, if_neg h, if_neg h]
    simp [ih]

lemma rmNN_id : ∀ (p : List Char), NoNN p → rmNN p = p := by
  intro p
  induction p using rmNN.induct with
  | case1 => intro; rfl
  | case2 c => intro; rfl
  | case3 a b t h ih =>
    intro hn
    exact absurd h (List.chain'_cons.mp hn).1
  | case4 a b t h ih =>
    intro hn
    rw [rmNN, if_neg h]
    rw [ih (List.chain'_cons.mp hn).2]

lemma rmNN_append : ∀ (a : List Char), a.getLast? ≠ some '\n' →
    ∀ b : List Char, rmNN (a ++ b) = rmNN a ++ rmNN b := by
  intro a
  induction a using rmNN.induct with
  | case1 => intro _ b; rfl
  | case2 c =>
    intro hl b
    have hc : c ≠ '\n' := by
      intro h
      exact hl (by simp [h])
    cases b with
    | nil => simp [rmNN]
    | cons d t =>
      show rmNN (c :: d :: t) = rmNN [c] ++ rmNN (d :: t)
      rw [rmNN.eq_3, if_neg (show ¬(c = '\n' ∧ d = '\n') from fun hh => hc hh.1)]
      rfl
  | case3 x y t h ih =>
    intro hl b
    obtain ⟨hx, hy⟩ := h
    subst hx; subst hy
    cases t with
    | nil => exact absurd (by decide) hl
    | cons u t2 =>
      have hl2 : (u :: t2).getLast? ≠ some '\n' := by
        simpa [List.getLast?_cons_cons] using hl
      show rmNN ('\n' :: '\n' :: ((u :: t2) ++ b)) = rmNN ('\n' :: '\n' :: (u :: t2)) ++ rmNN b
      rw [rmNN.eq_3, if_pos ⟨rfl, rfl⟩, rmNN.eq_3, if_pos ⟨rfl, rfl⟩]
      exact ih hl2 b
  | case4 x y t h ih =>
    intro hl b
    have hl2 : (y :: t).getLast? ≠ some '\n' := by
      simpa [List.getLast?_cons_cons] using hl
    show rmNN (x :: ((y :: t) ++ b)) = rmNN (x :: y :: t) ++ rmNN b
    rw [List.cons_append, rmNN.eq_3, if_neg h]
    rw [rmNN.eq_3, if_neg h]
    rw [List.cons_append]
    congr 1
    exact ih hl2 b

lemma pyStrip_append_nl2 (xs : List Char) : pyStrip (xs ++ nl2) = pyStrip xs := by
  simp [pyStrip, nl2, List.dropWhile_cons, isSpaceChar]

lemma dropWhile_eq_self_of_head {α : Type} (p : α → Bool) (l : List α)
    (h : ∀ c, l.head? = some c → p c = false) : l.dropWhile p = l := by
  cases l with
  | nil => rfl
  | cons a t =>
    rw [List.dropWhile_cons_of_neg]
    simp [h a rfl]

lemma head_false_of_dropWhile_eq_self {α : Type} (p : α → Bool) (l : List α)
    (h : l.dropWhile p = l) : ∀ c, l.head? = some c → p c = false := by
  cases l with
  | nil => intro c hc; cases hc
  | cons a t =>
    intro c hc
    have hac : a = c := by injection hc
    rw [← hac]
    cases hpc : p a with
    | false => rfl
    | true =>
      exfalso
      rw [List.dropWhile_cons_of_pos hpc] at h
      have hlen := congrArg List.length h
      have h2 := ((List.dropWhile_suffix p (l := t)).sublist).length_le
      simp at hlen
      omega

lemma pyStrip_id_of (s : List Char)
    (hh : ∀ c, s.head? = some c → isSpaceChar c = false)
    (hl : ∀ c, s.getLast? = some c → isSpaceChar c = false) :
    pyStrip s = s := by
  have e1 : s.reverse.dropWhile isSpaceChar = s.reverse :=
    dropWhile_eq_self_of_head _ _
      (by intro c hc; rw [List.head?_reverse] at hc; exact hl c hc)
  unfold pyStrip
  rw [e1, List.reverse_reverse]
  exact dropWhile_eq_self_of_head _ _ hh

lemma pyStrip_id_heads (s : List Char) (h : pyStrip s = s) :
    (∀ c, s.head? = some c → isSpaceChar c = false)
      ∧ (∀ c, s.getLast? = some c → isSpaceChar c = false) := by
  unfold pyStrip at h
  have h1 : (s.reverse.dropWhile isSpaceChar).length ≤ s.length := by
    simpa using ((List.dropWhile_suffix (l := s.reverse) isSpaceChar).sublist).length_le
  have h2 : ((s.reverse.dropWhile isSpaceChar).reverse.dropWhile isSpaceChar).length
      ≤ ((s.reverse.dropWhile isSpaceChar).reverse).length :=
    ((List.dropWhile_suffix isSpaceChar).sublist).length_le
  have h3 := congrArg List.length h
  simp only [List.length_reverse] at h2 h3
  have e1 : s.reverse.dropWhile isSpaceChar = s.reverse := by
    apply (List.dropWhile_suffix isSpaceChar).eq_of_length_le
    simp only [List.length_reverse]
    omega
  rw [e1, List.reverse_reverse] at h
  refine ⟨head_false_of_dropWhile_eq_self _ _ h, ?_⟩
  intro c hc
  exact head_false_of_dropWhile_eq_self _ _ e1 c (by rwa [List.head?_reverse])

lemma goodPara_last_not_space (p : List Char) (h : goodPara p) :
    ∀ c, p.getLast? = some c → isSpaceChar c = false :=
  (pyStrip_id_heads p h.2.1).2

lemma goodPara_head_not_space (p : List Char) (h : goodPara p) :
    ∀ c, p.head? = some c → isSpaceChar c = false :=
  (pyStrip_id_heads p h.2.1).1

lemma goodPara_last_ne_nl (p : List Char) (h : goodPara p) :
    p.getLast? ≠ some '\n' := by
  intro hc
  have := goodPara_last_not_space p h '\n' hc
  simp [isSpaceChar] at this

lemma flushNN_cons (q : List Char) (qs : List (List Char)) :
    flushNN (q :: qs) = q ++ nl2 ++ flushNN qs := by
  simp [flushNN]

lemma flushNN_snoc (qs : List (List Char)) (p : List Char) :
    flushNN (qs ++ [p]) = flushNN qs ++ p ++ nl2 := by
  simp [flushNN, List.append_assoc]

lemma flushNN_eq_joinNN : ∀ qs : List (List Char), qs ≠ [] →
    flushNN qs = joinNN qs ++ nl2 := by
  intro qs
  induction qs with
  | nil => intro h; exact absurd rfl h
  | cons q rest ih =>
    intro _
    cases rest with
    | nil => simp [flushNN, joinNN]
    | cons q2 t =>
      rw [flushNN_cons, joinNN, ih (by simp)]
      simp [List.append_assoc]

lemma joinNN_ne_nil : ∀ qs : List (List Char), qs ≠ [] → (∀ q ∈ qs, q ≠ []) →
    joinNN qs ≠ [] := by
  intro qs
  cases qs with
  | nil => intro h; exact absurd rfl h
  | cons q rest =>
    intro _ hq
    cases rest with
    | nil => exact hq q (by simp)
    | cons q2 t =>
      rw [joinNN]
      simp [nl2]

lemma joinNN_head_good : ∀ qs : List (List Char), (∀ q ∈ qs, goodPara q) →
    ∀ c, (joinNN qs).head? = some c → isSpaceChar c = false := by
  intro qs
  cases qs with
  | nil => intro _ c hc; cases hc
  | cons q rest =>
    intro hq c hc
    have hqg : goodPara q := hq q (by simp)
    cases rest with
    | nil => exact goodPara_head_not_space q hqg c hc
    | cons q2 t =>
      rw [joinNN, List.append_assoc, List.head?_append] at hc
      cases hq1 : q.head? with
      | none =>
        exact absurd (List.head?_eq_none_iff.mp hq1) hqg.1
      | some d =>
        rw [hq1] at hc
        rw [Option.or_some] at hc
        exact goodPara_head_not_space q hqg c (hq1.trans hc)

lemma joinNN_last_good : ∀ qs : List (List Char), (∀ q ∈ qs, goodPara q) →
    ∀ c, (joinNN qs).getLast? = some c → isSpaceChar c = false := by
  intro qs
  induction qs with
  | nil => intro _ c hc; cases hc
  | cons q rest ih =>
    intro hq c hc
    cases rest with
    | nil => exact goodPara_last_not_space q (hq q (by simp)) c hc
    | cons q2 t =>
      rw [joinNN] at hc
      rw [List.getLast?_append_of_ne_nil] at hc
      · exact ih (fun x hx => hq x (by simp [hx])) c hc
      · exact joinNN_ne_nil (q2 :: t) (by simp)
          (fun x hx => (hq x (by simp [hx])).1)

lemma joinNN_last_ne_nl (qs : List (List Char)) (h : ∀ q ∈ qs, goodPara q) :
    (joinNN qs).getLast? ≠ some '\n' := by
  intro hc
  have := joinNN_last_good qs h '\n' hc
  simp [isSpaceChar] at this

lemma pyStrip_flushNN (qs : List (List Char)) (hq : ∀ q ∈ qs, goodPara q) :
    pyStrip (flushNN qs) = joinNN qs := by
  cases qs with
  | nil => rfl
  | cons q t =>
    rw [flushNN_eq_joinNN _ (by simp), pyStrip_append_nl2]
    exact pyStrip_id_of _ (joinNN_head_good _ hq) (joinNN_last_good _ hq)

lemma rmNN_joinNN : ∀ qs : List (List Char), (∀ q ∈ qs, goodPara q) →
    rmNN (joinNN qs) = qs.flatten := by
  intro qs
  induction qs with
  | nil => intro _; rfl
  | cons q rest ih =>
    intro hq
    have hqg : goodPara q := hq q (by simp)
    cases rest with
    | nil => simp [joinNN, rmNN_id q hqg.2.2]
    | cons q2 t =>
      rw [joinNN, List.append_assoc,
        rmNN_append q (goodPara_last_ne_nl q hqg) _]
      rw [show nl2 ++ joinNN (q2 :: t) = '\n' :: '\n' :: joinNN (q2 :: t) from rfl]
      rw [rmNN.eq_3, if_pos ⟨rfl, rfl⟩]
      rw [ih (fun x hx => hq x (by simp [hx])), rmNN_id q hqg.2.2]
      simp

lemma chunkLoop_rmNN (cs : Nat) : ∀ (ps qs : List (List Char)),
    (∀ p ∈ ps, goodPara p) → (∀ q ∈ qs, goodPara q) →
    rmNN (chunkLoop cs ps (flushNN qs)).flatten = qs.flatten ++ ps.flatten := by
  intro ps
  induction ps with
  | nil =>
    intro qs hps hqs
    rw [chunkLoop]
    cases qs with
    | nil => simp [flushNN, pyStrip, rmNN]
    | cons q t =>
      rw [pyStrip_flushNN _ hqs]
      rw [if_neg (joinNN_ne_nil _ (by simp) (fun x hx => (hqs x hx).1))]
      simp only [List.flatten_cons, List.flatten_nil, List.append_nil,
        List.flatten]
      rw [rmNN_joinNN _ hqs]
      simp
  | cons p rest ih =>
    intro qs hps hqs
    have hp : goodPara p := hps p (by simp)
    have hrest : ∀ x ∈ rest, goodPara x := fun x hx => hps x (by simp [hx])
    have hq1 : ∀ x ∈ [p], goodPara x := by
      intro x hx
      rcases List.mem_singleton.mp hx with rfl
      exact hp
    have hqsp : ∀ x ∈ qs ++ [p], goodPara x := by
      intro x hx
      rcases List.mem_append.mp hx with h | h
      · exact hqs x h
      · rcases List.mem_singleton.mp h with rfl
        exact hp
    rw [chunkLoop]
    by_cases hlen : (flushNN qs).length + p.length < cs
    · rw [if_pos hlen]
      rw [show flushNN qs ++ p ++ nl2 = flushNN (qs ++ [p]) from
        (flushNN_snoc qs p).symm]
      rw [ih (qs ++ [p]) hrest hqsp]
      simp
    · rw [if_neg hlen]
      rw [show p ++ nl2 = flushNN [p] from by simp [flushNN]]
      cases qs with
      | nil =>
        rw [show pyStrip (flushNN ([] : List (List Char))) = [] from rfl]
        rw [if_pos rfl, List.nil_append]
        rw [ih [p] hrest hq1]
        simp
      | cons q t =>
        rw [pyStrip_flushNN _ hqs,
          if_neg (joinNN_ne_nil _ (by simp) (fun x hx => (hqs x hx).1))]
        rw [List.singleton_append, List.flatten_cons]
        rw [rmNN_append _ (joinNN_last_ne_nl _ hqs) _]
        rw [rmNN_joinNN _ hqs]
        rw [ih [p] hrest hq1]
        simp

lemma NoNN_snoc (l : List Char) (c : Char) (h1 : NoNN l)
    (h2 : ¬(l.getLast? = some '\n' ∧ c = '\n')) : NoNN (l ++ [c]) := by
  refine List.chain'_append.mpr ⟨h1, List.chain'_singleton _, ?_⟩
  intro x hx y hy
  simp only [Option.mem_def, List.head?_cons, Option.some.injEq] at hx hy
  subst hy
  rintro ⟨hx1, hy1⟩
  exact h2 ⟨by rw [hx, hx1], hy1⟩

lemma splitNN_NoNN : ∀ (acc s : List Char), NoNN acc.reverse →
    (acc.head? = some '\n' → s.head? ≠ some '\n') →
    ∀ p ∈ splitNN acc s, NoNN p := by
  intro acc s
  induction acc, s using splitNN.induct with
  | case1 acc =>
    intro h1 _ p hp
    rw [splitNN] at hp
    rcases List.mem_singleton.mp hp with rfl
    exact h1
  | case2 acc c =>
    intro h1 h2 p hp
    rw [splitNN] at hp
    rcases List.mem_singleton.mp hp with rfl
    rw [List.reverse_cons]
    refine NoNN_snoc _ _ h1 ?_
    rintro ⟨hx, hy⟩
    rw [List.getLast?_reverse] at hx
    exact h2 hx (by rw [hy]; rfl)
  | case3 acc a b t h ih =>
    intro h1 _ p hp
    rw [splitNN, if_pos h] at hp
    rcases List.mem_cons.mp hp with rfl | hp
    · exact h1
    · exact ih List.chain'_nil (by intro hc; cases hc) p hp
  | case4 acc a b t h ih =>
    intro h1 h2 p hp
    rw [splitNN, if_neg h] at hp
    refine ih ?_ ?_ p hp
    · rw [List.reverse_cons]
      refine NoNN_snoc _ _ h1 ?_
      rintro ⟨hx, hy⟩
      rw [List.getLast?_reverse] at hx
      exact h2 hx (by rw [hy]; rfl)
    · intro hca hcb
      simp only [List.head?_cons, Option.some.injEq] at hca hcb
      exact h ⟨hca, hcb⟩

lemma le_foldr_max : ∀ (l : List Nat) (x : Nat), x ∈ l → x ≤ l.foldr max 0 := by
  intro l
  induction l with
  | nil => intro x hx; cases hx
  | cons a t ih =>
    intro x hx
    rcases List.mem_cons.mp hx with rfl | hx
    · exact le_max_left _ _
    · exact le_trans (ih x hx) (le_max_right _ _)

lemma pyStrip_length_le (s : List Char) : (pyStrip s).length ≤ s.length := by
  unfold pyStrip
  calc ((s.reverse.dropWhile isSpaceChar).reverse.dropWhile isSpaceChar).length
      ≤ (s.reverse.dropWhile isSpaceChar).reverse.length :=
        ((List.dropWhile_suffix isSpaceChar).sublist).length_le
    _ ≤ s.length := by
        simpa using ((List.dropWhile_suffix (l := s.reverse) isSpaceChar).sublist).length_le

lemma chunkLoop_bound (cs M : Nat) : ∀ (ps : List (List Char)) (cur : List Char),
    (pyStrip cur).length ≤ cs + M →
    (∀ p ∈ ps, p.length ≤ M) →
    ∀ c ∈ chunkLoop cs ps cur, c.length ≤ cs + M := by
  intro ps
  induction ps with
  | nil =>
    intro cur hcur _ c hc
    rw [chunkLoop] at hc
    split_ifs at hc
    · cases hc
    · rcases List.mem_singleton.mp hc with rfl
      exact hcur
  | cons p rest ih =>
    intro cur hcur hps c hc
    have hpM : p.length ≤ M := hps p (by simp)
    have hrest : ∀ x ∈ rest, x.length ≤ M := fun x hx => hps x (by simp [hx])
    have hnext : (pyStrip (p ++ nl2)).length ≤ cs + M := by
      calc (pyStrip (p ++ nl2)).length
          = (pyStrip p).length := by rw [pyStrip_append_nl2]
        _ ≤ p.length := pyStrip_length_le _
        _ ≤ cs + M := by omega
    rw [chunkLoop] at hc
    split_ifs at hc with hlen hemp
    · refine ih (cur ++ p ++ nl2) ?_ hrest c hc
      calc (pyStrip (cur ++ p ++ nl2)).length
          = (pyStrip (cur ++ p)).length := by rw [pyStrip_append_nl2]
        _ ≤ (cur ++ p).length := pyStrip_length_le _
        _ ≤ cs + M := by
            simp only [List.length_append]
            omega
    · rw [List.nil_append] at hc
      exact ih (p ++ nl2) hnext hrest c hc
    · rcases List.mem_append.mp hc with hc | hc
      · rcases List.mem_singleton.mp hc with rfl
        exact hcur
      · exact ih (p ++ nl2) hnext hrest c hc

/-- C7 counterexample: for the three-character document consisting of a
space, the letter `a` and a space, the single produced chunk body is the
stripped `a`, so concatenating the chunk bodies and removing the
inserted separators does not reproduce the original text. -/
theorem chunking_lossless_cx :
    (splitDocument 500 (cl " a ")).flatten = cl "a"
      ∧ rmNN ((splitDocument 500 (cl " a ")).flatten) ≠ rmNN (cl " a ") := by
  refine ⟨by decide, by decide⟩

/-- C7 amended: the losslessness half of the chunking invariant holds
for documents whose paragraphs are nonempty and carry no leading or
trailing whitespace (stripping each flushed chunk removes exactly the
reinserted separators then); it fails otherwise, because chunk bodies
are stripped.  The size half holds unconditionally: no chunk body
exceeds the target size plus the length of the longest paragraph. -/
theorem chunking_invariant_amended (content : List Char) :
    ((∀ p ∈ splitNN [] content, p ≠ [] ∧ pyStrip p = p) →
        rmNN (splitDocument 500 content).flatten = rmNN content)
      ∧ ∀ c ∈ splitDocument 500 content,
          c.length ≤ 500 + maxParaLen content := by
  constructor
  · intro hgood
    have hNoNN : ∀ p ∈ splitNN [] content, NoNN p :=
      splitNN_NoNN [] content List.chain'_nil (by intro hc; cases hc)
    have hps : ∀ p ∈ splitNN [] content, goodPara p := fun p hp =>
      ⟨(hgood p hp).1, (hgood p hp).2, hNoNN p hp⟩
    have hinv := chunkLoop_rmNN 500 (splitNN [] content) [] hps
      (by intro q hq; cases hq)
    rw [show flushNN [] = [] from rfl] at hinv
    rw [splitDocument, hinv]
    have hflat := flatten_splitNN [] content
    simpa using hflat
  · intro c hc
    refine chunkLoop_bound 500 (maxParaLen content) (splitNN [] content) []
      ?_ ?_ c hc
    · simp [pyStrip]
    · intro p hp
      exact le_foldr_max _ _ (List.mem_map.mpr ⟨p, hp, rfl⟩)

/-- C7 amended witness at a concrete two-paragraph document. -/
theorem chunking_invariant_amended_witness :
    (∀ p ∈ splitNN [] (cl "hello\n\nworld"), p ≠ [] ∧ pyStrip p = p)
      ∧ rmNN (splitDocument 500 (cl "hello\n\nworld")).flatten
          = rmNN (cl "hello\n\nworld") :=
  ⟨by decide, (chunking_invariant_amended (cl "hello\n\nworld")).1 (by decide)⟩

end CivicMind
